import Mathlib

/-!
# `container/duplicate_tabs.go`: adaptive tab bar

A shallow embedding of the `DuplicateTabs` widget and of its renderer.

* Go pointers are addresses (`Nat`): a `*TabItem` is the `ptr` of a `TabItem`,
  a `*tabButton` is an address in the object store of `ButtonCache`.
* `float32` coordinates are an arbitrary type `F`; the comparison `<=` and the
  subtraction used by the code are supplied by the host (`Host.le`, `Host.sub`).
* The toolkit services the file calls (`r.bar.MinSize()`, the geometry left by
  `baseTabsRenderer.layout`, `theme.Padding()`, `IsMobile()`) are fields of `Host`.
* A Go run-time panic (index out of range, failed type assertion, call of a nil
  func value, `make` with a negative capacity) is the result `none`.
-/

namespace container

/-- Placement of the tab bar: the `TabLocation` enumeration. -/
inductive TabLocation where
  | TabLocationTop
  | TabLocationLeading
  | TabLocationBottom
  | TabLocationTrailing
  deriving DecidableEq, Repr

/-- Size of a canvas object: `fyne.Size`. -/
structure Size (F : Type) where
  Width : F
  Height : F
  deriving DecidableEq, Repr

/-- Position of a canvas object: `fyne.Position`. -/
structure Position (F : Type) where
  X : F
  Y : F
  deriving DecidableEq, Repr

/-- A tab item together with its address: `ptr` is the identity of the `*TabItem`,
`Text` and `Icon` are the two fields this file reads through the pointer. -/
structure TabItem where
  ptr : Nat
  Text : String
  Icon : Nat
  deriving DecidableEq, Repr

/-- Icon placement inside a tab button: `buttonIconPosition`. -/
inductive buttonIconPosition where
  | buttonIconInline
  | buttonIconTop
  deriving DecidableEq, Repr

/-- Visual importance of a button: `widget.ButtonImportance` (zero value medium). -/
inductive ButtonImportance where
  | MediumImportance
  | HighImportance
  | LowImportance
  deriving DecidableEq, Repr

/-- Text alignment: `fyne.TextAlign` (zero value leading). -/
inductive TextAlign where
  | TextAlignLeading
  | TextAlignCenter
  | TextAlignTrailing
  deriving DecidableEq, Repr

/-- The fields of a `tabButton` object that `buildTabButtons` writes. The two
callbacks close over the item the button was created for: `onTapped` is
`Select(item)` and `onClosed` is `Remove(item)`, recorded by the item address. -/
structure tabButton where
  onTapped : Option Nat
  onClosed : Option Nat
  icon : Nat
  iconPosition : buttonIconPosition
  importance : ButtonImportance
  text : String
  textAlignment : TextAlign
  deriving DecidableEq, Repr

/-- A leaf object of the bar: a tab button (by address), the add button that
`buildAddTabButton` makes, or the overflow action `r.action`. -/
inductive CanvasObject where
  | tabButton (addr : Nat)
  | addTabButton
  | overflowAction
  deriving DecidableEq, Repr

/-- Arrangement of the button container chosen by `buildTabButtons`. -/
inductive ButtonsLayout where
  | GridLayoutWithColumns (cells : Int)
  | GridLayoutWithRows (cells : Int)
  | VBoxLayout
  | HBoxLayout
  deriving DecidableEq, Repr

/-- The `*fyne.Container` returned by `buildTabButtons`. -/
structure Container where
  Layout : ButtonsLayout
  Objects : List CanvasObject
  deriving DecidableEq, Repr

/-- Arrangement of the bar chosen by `updateTabs`; `unset` is the zero value of
`&fyne.Container{}`. `BorderLayout` lists its top, bottom, left and right
objects as `layout.NewBorderLayout` does. -/
inductive BarLayout where
  | unset
  | MaxLayout
  | BorderLayout (top bottom left right : Option CanvasObject)
  deriving DecidableEq, Repr

/-- An element of `r.bar.Objects`: the button container or a leaf object. -/
inductive BarObject where
  | container (c : Container)
  | object (o : CanvasObject)
  deriving DecidableEq, Repr

/-- The tab bar `r.bar`. -/
structure Bar where
  Layout : BarLayout
  Objects : List BarObject
  deriving DecidableEq, Repr

/-- The map `buttonCache` (`entries`, keyed by item address) together with the
`tabButton` objects its values point to (`buttons`, by address) and the number
of `tabButton` objects allocated so far, which is the next fresh address. -/
structure ButtonCache where
  entries : Nat → Option Nat
  buttons : Nat → tabButton
  allocated : Nat

/-- What the toolkit reads when it measures or lays out the bar: the bar, the
state of the button objects and the `Hidden` flag of the overflow action. -/
structure BarState where
  bar : Bar
  buttons : Nat → tabButton
  actionHidden : Bool

/-- Geometry of the bar and of its leaf objects, as the toolkit reports it
through `Position()` and `Size()`. -/
structure Geometry (F : Type) where
  barPosition : Position F
  objectPosition : CanvasObject → Position F
  objectSize : CanvasObject → Size F

/-- Services of the host toolkit that the file consumes. `geometry` takes the
extent of the last `baseTabsRenderer.layout` call (`none` before the first). -/
structure Host (F : Type) where
  le : F → F → Bool
  sub : F → F → F
  zero : F
  Padding : F
  IsMobile : Bool
  barMinSize : BarState → Size F
  geometry : BarState → TabLocation → Option (Size F) → Geometry F

/-- An entry of the overflow menu: `fyne.NewMenuItem(label, action)`, whose
action calls `SelectIndex(index)` with the captured index. -/
structure MenuItem where
  Label : String
  selectIndex : Int
  deriving DecidableEq, Repr

/-- The pop-up menu made by `buildPopUpMenu` from the given entries. -/
structure PopUpMenu where
  Items : List MenuItem
  deriving DecidableEq, Repr

/-- The widget `DuplicateTabs`. `size` is the size held by `BaseWidget`; a
callback acts on a host state of type `σ`, and a nil slot is `none`. -/
structure DuplicateTabs (F σ : Type) where
  size : Size F
  Items : List TabItem
  OnChanged : Option (TabItem → σ → σ)
  OnSelected : Option (TabItem → σ → σ)
  OnUnselected : Option (TabItem → σ → σ)
  OnAdded : Option (σ → TabItem × σ)
  OnRemoved : Option (TabItem → σ → σ)
  current : Int
  location : TabLocation
  isTransitioning : Bool
  popupMenu : Option PopUpMenu

/-- The last command this file issued to the selection indicator: none yet,
`r.indicator.Hide()`, or `r.moveIndicator(pos, size, animate)`. -/
inductive Indicator (F : Type) where
  | initial
  | hidden
  | moved (pos : Position F) (size : Size F) (animate : Bool)
  deriving DecidableEq, Repr

/-- The renderer `duplicateTabsRenderer`; `actionHidden` is the `Hidden` flag of
`r.action`, which `CreateRenderer` always sets to a non-nil button. -/
structure duplicateTabsRenderer (F σ : Type) where
  bar : Bar
  indicator : Indicator F
  actionHidden : Bool
  buttonCache : ButtonCache
  duplicateTabs : DuplicateTabs F σ

variable {F σ : Type}

/-- `NewDuplicateTabs(items...)`: every field but `Items` keeps its zero value. -/
def NewDuplicateTabs (host : Host F) (items : List TabItem) : DuplicateTabs F σ :=
  { size := ⟨host.zero, host.zero⟩
    Items := items
    OnChanged := none
    OnSelected := none
    OnUnselected := none
    OnAdded := none
    OnRemoved := none
    current := 0
    location := TabLocation.TabLocationTop
    isTransitioning := false
    popupMenu := none }

/-- `onUnselected`: the slot itself. -/
def onUnselected (t : DuplicateTabs F σ) : Option (TabItem → σ → σ) :=
  t.OnUnselected

/-- `onSelected`: a notifier that calls `OnChanged` and then `OnSelected`, each
only when it is not nil. -/
def onSelected (t : DuplicateTabs F σ) : TabItem → σ → σ :=
  fun tab s =>
    let s1 := match t.OnChanged with
      | some f => f tab s
      | none => s
    match t.OnSelected with
    | some f => f tab s1
    | none => s1

/-- The state the toolkit sees when it measures the bar of `r`. -/
def barState (r : duplicateTabsRenderer F σ) : BarState :=
  { bar := r.bar, buttons := r.buttonCache.buttons, actionHidden := r.actionHidden }

/-- The `tabButton` literal of `buildTabButtons`: the two callbacks are set, the
other fields have their zero value. -/
def newTabButton (item : TabItem) : tabButton :=
  { onTapped := some item.ptr
    onClosed := some item.ptr
    icon := 0
    iconPosition := buttonIconPosition.buttonIconInline
    importance := ButtonImportance.MediumImportance
    text := ""
    textAlignment := TextAlign.TextAlignLeading }

/-- The assignments `buildTabButtons` makes to the button of the item at index `i`. -/
def refreshButton (iconPos : buttonIconPosition) (current : Int) (i : Nat)
    (item : TabItem) (b : tabButton) : tabButton :=
  { b with
    icon := item.Icon
    iconPosition := iconPos
    importance :=
      if (i : Int) = current then ButtonImportance.HighImportance
      else ButtonImportance.MediumImportance
    text := item.Text
    textAlignment := TextAlign.TextAlignCenter }

/-- `button, ok := r.buttonCache[item]; if !ok { button = &tabButton{...};
r.buttonCache[item] = button }`: the cached address, or a fresh object. -/
def getOrCreate (c : ButtonCache) (item : TabItem) : ButtonCache × Nat :=
  match c.entries item.ptr with
  | some b => (c, b)
  | none =>
    ({ entries := Function.update c.entries item.ptr (some c.allocated)
       buttons := Function.update c.buttons c.allocated (newTabButton item)
       allocated := c.allocated + 1 }, c.allocated)

/-- One iteration of the loop of `buildTabButtons`, for the item at index `i`. -/
def buttonStep (iconPos : buttonIconPosition) (current : Int) (i : Nat)
    (item : TabItem) (c : ButtonCache) : ButtonCache × Nat :=
  let cb := getOrCreate c item
  ({ cb.1 with
     buttons := Function.update cb.1.buttons cb.2
       (refreshButton iconPos current i item (cb.1.buttons cb.2)) }, cb.2)

/-- The loop `for i := 0; i < count; i++` of `buildTabButtons`, with `n`
iterations left at index `i`; `Items[i]` out of range is a panic. -/
def tabButtonsLoop (items : List TabItem) (iconPos : buttonIconPosition) (current : Int) :
    Nat → Nat → ButtonCache → List CanvasObject → Option (ButtonCache × List CanvasObject)
  | 0, _, c, objs => some (c, objs)
  | n + 1, i, c, objs =>
    match items[i]? with
    | none => none
    | some item =>
      let cb := buttonStep iconPos current i item c
      tabButtonsLoop items iconPos current n (i + 1) cb.1 (objs ++ [CanvasObject.tabButton cb.2])

/-- The layout of the button container and the icon position that
`buildTabButtons` selects before its loop. -/
def buttonsArrangement (isMobile : Bool) (location : TabLocation) (count : Int) :
    ButtonsLayout × buttonIconPosition :=
  if isMobile then
    let cells := if count = 0 then 1 else count
    if location = TabLocation.TabLocationTop ∨ location = TabLocation.TabLocationBottom then
      (ButtonsLayout.GridLayoutWithColumns cells, buttonIconPosition.buttonIconTop)
    else
      (ButtonsLayout.GridLayoutWithRows cells, buttonIconPosition.buttonIconTop)
  else if location = TabLocation.TabLocationLeading ∨
      location = TabLocation.TabLocationTrailing then
    (ButtonsLayout.VBoxLayout, buttonIconPosition.buttonIconTop)
  else
    (ButtonsLayout.HBoxLayout, buttonIconPosition.buttonIconInline)

/-- `buildTabButtons(count)`: the container with the first `count` tab buttons
followed by the add button, and the renderer with its cache updated. -/
def buildTabButtons (host : Host F) (r : duplicateTabsRenderer F σ) (count : Int) :
    Option (Container × duplicateTabsRenderer F σ) :=
  let arr := buttonsArrangement host.IsMobile r.duplicateTabs.location count
  match tabButtonsLoop r.duplicateTabs.Items arr.2 r.duplicateTabs.current
      count.toNat 0 r.buttonCache [] with
  | none => none
  | some (c, objs) =>
    some ({ Layout := arr.1, Objects := objs ++ [CanvasObject.addTabButton] },
          { r with buttonCache := c })

/-- The layout `updateTabs` gives the bar when the overflow action is shown. -/
def overflowLayout (location : TabLocation) : BarLayout :=
  if location = TabLocation.TabLocationLeading ∨
      location = TabLocation.TabLocationTrailing then
    BarLayout.BorderLayout none (some CanvasObject.overflowAction) none none
  else
    BarLayout.BorderLayout none none none (some CanvasObject.overflowAction)

/-- `updateTabs(max)`: hides or shows the overflow action and sets the bar
layout, builds the buttons for `tabCount` items, and makes the bar hold the
button container followed by the action (`r.action` is never nil). -/
def updateTabs (host : Host F) (r : duplicateTabsRenderer F σ) (max : Int) :
    Option (duplicateTabsRenderer F σ) :=
  let n : Int := r.duplicateTabs.Items.length
  let tabCount : Int := if n ≤ max then n else max
  let r1 : duplicateTabsRenderer F σ :=
    if n ≤ max then
      { r with actionHidden := true, bar := { r.bar with Layout := BarLayout.MaxLayout } }
    else
      { r with
        actionHidden := false
        bar := { r.bar with Layout := overflowLayout r.duplicateTabs.location } }
  match buildTabButtons host r1 tabCount with
  | none => none
  | some (buttons, r2) =>
    some { r2 with
           bar := { r2.bar with
                    Objects := [BarObject.container buttons,
                                BarObject.object CanvasObject.overflowAction] } }

/-- The object whose geometry `updateIndicator` reads for a non-negative
`current`: the overflow action when `current >= len(buttons)`, otherwise
`buttons[current]`. -/
def selectedObject (current : Int) (buttons : List CanvasObject) : Option CanvasObject :=
  if current ≥ (buttons.length : Int) then some CanvasObject.overflowAction
  else buttons[current.toNat]?

/-- `updateIndicator(animate)`; `extent` is the extent of the last
`baseTabsRenderer.layout` call. -/
def updateIndicator (host : Host F) (extent : Option (Size F)) (animate : Bool)
    (r : duplicateTabsRenderer F σ) : Option (duplicateTabsRenderer F σ) :=
  if r.duplicateTabs.current < 0 then
    some { r with indicator := Indicator.hidden }
  else
    match r.bar.Objects with
    | BarObject.container c :: _ =>
      match selectedObject r.duplicateTabs.current c.Objects with
      | none => none
      | some o =>
        let g := host.geometry (barState r) r.duplicateTabs.location extent
        let selectedPos := g.objectPosition o
        let selectedSize := g.objectSize o
        let barMin := host.barMinSize (barState r)
        let pos : Position F :=
          match r.duplicateTabs.location with
          | TabLocation.TabLocationTop => ⟨selectedPos.X, barMin.Height⟩
          | TabLocation.TabLocationLeading => ⟨barMin.Width, selectedPos.Y⟩
          | TabLocation.TabLocationBottom =>
            ⟨selectedPos.X, host.sub g.barPosition.Y host.Padding⟩
          | TabLocation.TabLocationTrailing =>
            ⟨host.sub g.barPosition.X host.Padding, selectedPos.Y⟩
        let size : Size F :=
          match r.duplicateTabs.location with
          | TabLocation.TabLocationTop => ⟨selectedSize.Width, host.Padding⟩
          | TabLocation.TabLocationLeading => ⟨host.Padding, selectedSize.Height⟩
          | TabLocation.TabLocationBottom => ⟨selectedSize.Width, host.Padding⟩
          | TabLocation.TabLocationTrailing => ⟨host.Padding, selectedSize.Height⟩
        some { r with indicator := Indicator.moved pos size animate }
    | _ => none

/-- The test of the loop of `Layout`: the governing dimension of the bar's
minimum size (height for a leading or trailing bar, width otherwise) against
the available extent. -/
def fits (host : Host F) (r : duplicateTabsRenderer F σ) (size : Size F) : Bool :=
  let barMin := host.barMinSize (barState r)
  if r.duplicateTabs.location = TabLocation.TabLocationLeading ∨
      r.duplicateTabs.location = TabLocation.TabLocationTrailing then
    host.le barMin.Height size.Height
  else
    host.le barMin.Width size.Width

/-- The loop `for i := len(Items); i > 0; i--` of `Layout`, at candidate `i`. -/
def fitLoop (host : Host F) (size : Size F) :
    Nat → duplicateTabsRenderer F σ → Option (duplicateTabsRenderer F σ)
  | 0, r => some r
  | i + 1, r =>
    match updateTabs host r ((i + 1 : Nat) : Int) with
    | none => none
    | some r1 => if fits host r1 size then some r1 else fitLoop host size i r1

/-- `Layout(size)`: the fit loop, then `r.layout(r.duplicateTabs, size)` (the
toolkit's placement, seen through `Host.geometry` at extent `size`), then
`updateIndicator(transitioning)`, then the transitioning flag is cleared. -/
def Layout (host : Host F) (r : duplicateTabsRenderer F σ) (size : Size F) :
    Option (duplicateTabsRenderer F σ) :=
  match fitLoop host size r.duplicateTabs.Items.length r with
  | none => none
  | some r1 =>
    match updateIndicator host (some size) r1.duplicateTabs.isTransitioning r1 with
    | none => none
    | some r2 =>
      if r2.duplicateTabs.isTransitioning then
        some { r2 with duplicateTabs := { r2.duplicateTabs with isTransitioning := false } }
      else some r2

/-- `Refresh()`: a layout pass at the widget's current size. -/
def Refresh (host : Host F) (r : duplicateTabsRenderer F σ) :
    Option (duplicateTabsRenderer F σ) :=
  Layout host r r.duplicateTabs.size

/-- The renderer literal of `CreateRenderer`: an empty bar, a fresh indicator,
the overflow action (visible, as a new button is) and an empty `buttonCache`. -/
def newRenderer (t : DuplicateTabs F σ) : duplicateTabsRenderer F σ :=
  { bar := { Layout := BarLayout.unset, Objects := [] }
    indicator := Indicator.initial
    actionHidden := false
    buttonCache :=
      { entries := fun _ => none, buttons := fun _ => newTabButton ⟨0, "", 0⟩, allocated := 0 }
    duplicateTabs := t }

/-- `CreateRenderer()`: the bar is first set up with `updateTabs(1)`, then the
indicator with `updateIndicator(false)`. -/
def CreateRenderer (host : Host F) (t : DuplicateTabs F σ) :
    Option (duplicateTabsRenderer F σ) :=
  match updateTabs host (newRenderer t) 1 with
  | none => none
  | some r1 => updateIndicator host none false r1

/-- The loop `for i := objLen; i < itemLen; i++` of the overflow action's tap
handler, with `n` iterations left at index `i`: one menu entry per index,
labelled `Items[i].Text`, whose action calls `SelectIndex(i)`. -/
def menuItemsLoop (items : List TabItem) : Nat → Nat → List MenuItem → Option (List MenuItem)
  | 0, _, acc => some acc
  | n + 1, i, acc =>
    match items[i]? with
    | none => none
    | some item => menuItemsLoop items n (i + 1) (acc ++ [⟨item.Text, (i : Int)⟩])

/-- The `OnTapped` handler that `buildOverflowTabsButton` installs on the
overflow action. `make` with a negative capacity is a panic. -/
def overflowTapped (r : duplicateTabsRenderer F σ) : Option (duplicateTabsRenderer F σ) :=
  match r.bar.Objects with
  | BarObject.container c :: _ =>
    let itemLen : Int := r.duplicateTabs.Items.length
    let objLen : Int := c.Objects.length
    if itemLen - objLen < 0 then none
    else
      match menuItemsLoop r.duplicateTabs.Items (itemLen - objLen).toNat objLen.toNat [] with
      | none => none
      | some items =>
        some { r with duplicateTabs := { r.duplicateTabs with popupMenu := some ⟨items⟩ } }
  | _ => none

/-- The `OnTapped` handler that `buildAddTabButton` installs on the add button.
Calling the nil func value `OnAdded` is a panic. `Select(newTab)` runs
`selectItem`, which is defined outside this file and is a parameter here, and
then refreshes the widget. -/
def addTabTapped (host : Host F)
    (selectItem : DuplicateTabs F σ → TabItem → σ → DuplicateTabs F σ × σ)
    (r : duplicateTabsRenderer F σ) (s : σ) : Option (duplicateTabsRenderer F σ × σ) :=
  match r.duplicateTabs.OnAdded with
  | none => none
  | some f =>
    let added := f s
    let r1 : duplicateTabsRenderer F σ :=
      { r with duplicateTabs := { r.duplicateTabs with Items := r.duplicateTabs.Items ++ [added.1] } }
    match Refresh host r1 with
    | none => none
    | some r2 =>
      let sel := selectItem r2.duplicateTabs added.1 added.2
      match Refresh host { r2 with duplicateTabs := sel.1 } with
      | none => none
      | some r3 => some (r3, sel.2)

/-- Whether a leaf object is a tab button. -/
def isTabButton : CanvasObject → Bool
  | CanvasObject.tabButton _ => true
  | _ => false

/-- The visible count: the number of tab buttons in the bar's button container. -/
def visibleCount (r : duplicateTabsRenderer F σ) : Nat :=
  match r.bar.Objects with
  | BarObject.container c :: _ => (c.Objects.filter isTabButton).length
  | _ => 0

/-- The objects of the bar's button container. -/
def barButtons (r : duplicateTabsRenderer F σ) : List CanvasObject :=
  match r.bar.Objects with
  | BarObject.container c :: _ => c.Objects
  | _ => []

/-- The renderer as the loop of `Layout` has it after its first `d` iterations,
none of which met the `break`: the calls `updateTabs(n)`, `updateTabs(n - 1)`,
..., `updateTabs(n - d + 1)` in turn, `n` being the number of items. -/
def loopState (host : Host F) (r : duplicateTabsRenderer F σ) :
    Nat → Option (duplicateTabsRenderer F σ)
  | 0 => some r
  | d + 1 =>
    match loopState host r d with
    | none => none
    | some s => updateTabs host s ((r.duplicateTabs.Items.length - d : Nat) : Int)

/-- The bar that the loop of `Layout` builds and measures for candidate count
`i`: the renderer right after the loop's call `updateTabs(i)`. -/
def candidate (host : Host F) (r : duplicateTabsRenderer F σ) (i : Nat) :
    Option (duplicateTabsRenderer F σ) :=
  loopState host r (r.duplicateTabs.Items.length - i + 1)

/-- Whether the bar built for candidate count `i` fits the available extent. -/
def candidateFits (host : Host F) (r : duplicateTabsRenderer F σ) (size : Size F)
    (i : Nat) : Bool :=
  match candidate host r i with
  | some c => fits host c size
  | none => false

/-- A run of layout passes, one per extent, in order. -/
def layoutPasses (host : Host F) :
    List (Size F) → duplicateTabsRenderer F σ → Option (duplicateTabsRenderer F σ)
  | [], r => some r
  | size :: rest, r =>
    match Layout host r size with
    | none => none
    | some r1 => layoutPasses host rest r1

/-- One step in the life of a renderer: a call of `buildTabButtons`, of
`updateTabs` or of `Layout`, or a change the host makes to the widget. -/
inductive Pass (F σ : Type) where
  | buildTabButtons (count : Int)
  | updateTabs (max : Int)
  | Layout (size : Size F)
  | mutate (f : DuplicateTabs F σ → DuplicateTabs F σ)

/-- Runs one pass. -/
def runPass (host : Host F) (p : Pass F σ) (r : duplicateTabsRenderer F σ) :
    Option (duplicateTabsRenderer F σ) :=
  match p with
  | Pass.buildTabButtons count => (buildTabButtons host r count).map Prod.snd
  | Pass.updateTabs max => updateTabs host r max
  | Pass.Layout size => Layout host r size
  | Pass.mutate f => some { r with duplicateTabs := f r.duplicateTabs }

/-- Runs a sequence of passes, in order. -/
def runPasses (host : Host F) :
    List (Pass F σ) → duplicateTabsRenderer F σ → Option (duplicateTabsRenderer F σ)
  | [], r => some r
  | p :: rest, r =>
    match runPass host p r with
    | none => none
    | some r1 => runPasses host rest r1

/-- The position and size last given to the indicator, without the animate flag. -/
def Indicator.placement : Indicator F → Option (Position F × Size F)
  | Indicator.moved pos size _ => some (pos, size)
  | _ => none

/-- A host with integer coordinates: every object of the button container is 10
wide and high, a visible overflow action adds 10, objects are placed in a row. -/
def demoHost : Host Int :=
  { le := fun a b => decide (a ≤ b)
    sub := fun a b => a - b
    zero := 0
    Padding := 4
    IsMobile := false
    barMinSize := fun st =>
      match st.bar.Objects with
      | BarObject.container c :: _ =>
        let w : Int := 10 * (c.Objects.length : Int) + (if st.actionHidden then 0 else 10)
        ⟨w, w⟩
      | _ => ⟨0, 0⟩
    geometry := fun st _ _ =>
      { barPosition := ⟨0, 0⟩
        objectPosition := fun o =>
          match st.bar.Objects with
          | BarObject.container c :: _ => ⟨10 * (c.Objects.indexOf o : Int), 0⟩
          | _ => ⟨0, 0⟩
        objectSize := fun _ => ⟨10, 10⟩ } }

/-- Five tab items with distinct addresses. -/
def demoItems : List TabItem :=
  [⟨1, "a", 0⟩, ⟨2, "b", 0⟩, ⟨3, "c", 0⟩, ⟨4, "d", 0⟩, ⟨5, "e", 0⟩]

/-- A widget with the five demo items and no callback set. -/
def demoTabs : DuplicateTabs Int Nat :=
  NewDuplicateTabs demoHost demoItems

/-- The renderer `CreateRenderer` makes for the demo widget. -/
def demoRenderer : duplicateTabsRenderer Int Nat :=
  (CreateRenderer demoHost demoTabs).getD (newRenderer demoTabs)

/-- The demo renderer after one layout pass at extent 45. -/
def demoLaidOut : duplicateTabsRenderer Int Nat :=
  (layoutPasses demoHost [⟨45, 45⟩] demoRenderer).getD demoRenderer

/-- The demo widget with the item at index 3 selected. -/
def demoTabsThree : DuplicateTabs Int Nat :=
  { demoTabs with current := 3 }

/-- The host empties the collection: every item removed, or the exported field
`Items` reassigned. Nothing else in the widget or the renderer changes. -/
def emptyItems (r : duplicateTabsRenderer F σ) : duplicateTabsRenderer F σ :=
  { r with duplicateTabs := { r.duplicateTabs with Items := [] } }

/-- A widget with a single item and no callback set. -/
def demoOneTab : DuplicateTabs Int Nat :=
  NewDuplicateTabs demoHost [⟨1, "a", 0⟩]

/-- The renderer of the single-item widget after a layout pass at extent 100,
with its collection then emptied. -/
def demoEmptied : duplicateTabsRenderer Int Nat :=
  emptyItems
    (((CreateRenderer demoHost demoOneTab).bind
      (fun r => Layout demoHost r ⟨100, 100⟩)).getD (newRenderer demoOneTab))

/-- The laid-out demo renderer after `updateTabs(5)`, a change of selection by
the host and `buildTabButtons(2)`. -/
def demoReworked : duplicateTabsRenderer Int Nat :=
  (runPasses demoHost
    [Pass.updateTabs 5, Pass.mutate (fun t => { t with current := 4 }),
     Pass.buildTabButtons 2] demoLaidOut).getD demoLaidOut

/-- The dimension of a size that governs the fit decision for a placement:
the height for a leading or trailing bar, the width otherwise. -/
def governing (location : TabLocation) (size : Size F) : F :=
  if location = TabLocation.TabLocationLeading ∨
      location = TabLocation.TabLocationTrailing then size.Height
  else size.Width

/-- Well-formed cache: every cached address has been allocated, and no two item
addresses share a button address. -/
def CacheWF (c : ButtonCache) : Prop :=
  (∀ p b, c.entries p = some b → b < c.allocated) ∧
  (∀ p q b, c.entries p = some b → c.entries q = some b → p = q)

/-- The bar is the one `updateTabs` builds for the current items: the two bar
objects are in place, the overflow action is hidden exactly when every item has
a tab button, and the bar layout matches. -/
def BarSynced (r : duplicateTabsRenderer F σ) : Prop :=
  (∃ c, r.bar.Objects =
    [BarObject.container c, BarObject.object CanvasObject.overflowAction]) ∧
  visibleCount r ≤ r.duplicateTabs.Items.length ∧
  (r.actionHidden = false ↔ visibleCount r < r.duplicateTabs.Items.length) ∧
  (r.actionHidden = true → r.bar.Layout = BarLayout.MaxLayout) ∧
  (r.actionHidden = false → r.bar.Layout = overflowLayout r.duplicateTabs.location)

/-! ## The button cache -/

theorem getOrCreate_cached (c : ButtonCache) (item : TabItem) (b : Nat)
    (h : c.entries item.ptr = some b) : getOrCreate c item = (c, b) := by
  simp [getOrCreate, h]

theorem getOrCreate_fresh (c : ButtonCache) (item : TabItem)
    (h : c.entries item.ptr = none) :
    getOrCreate c item =
      ({ entries := Function.update c.entries item.ptr (some c.allocated)
         buttons := Function.update c.buttons c.allocated (newTabButton item)
         allocated := c.allocated + 1 }, c.allocated) := by
  simp [getOrCreate, h]

theorem getOrCreate_entry (c : ButtonCache) (item : TabItem) :
    (getOrCreate c item).1.entries item.ptr = some (getOrCreate c item).2 := by
  cases h : c.entries item.ptr with
  | none => simp [getOrCreate_fresh c item h]
  | some b => simpa [getOrCreate_cached c item b h] using h

theorem getOrCreate_mono (c : ButtonCache) (item : TabItem) (p b : Nat)
    (h : c.entries p = some b) : (getOrCreate c item).1.entries p = some b := by
  cases h1 : c.entries item.ptr with
  | none =>
    have hne : p ≠ item.ptr := by
      intro he
      rw [he, h1] at h
      cases h
    simp [getOrCreate_fresh c item h1, Function.update, hne, h]
  | some b1 => simpa [getOrCreate_cached c item b1 h1] using h

theorem getOrCreate_buttons (c : ButtonCache) (item : TabItem) (a : Nat)
    (h : a ≠ (getOrCreate c item).2) : (getOrCreate c item).1.buttons a = c.buttons a := by
  cases h1 : c.entries item.ptr with
  | none =>
    rw [getOrCreate_fresh c item h1] at h ⊢
    simp only [ne_eq] at h
    simp [Function.update, h]
  | some b1 => simp [getOrCreate_cached c item b1 h1]

theorem getOrCreate_wf (c : ButtonCache) (item : TabItem) (h : CacheWF c) :
    CacheWF (getOrCreate c item).1 := by
  cases h1 : c.entries item.ptr with
  | some b1 => simpa [getOrCreate_cached c item b1 h1] using h
  | none =>
    rw [getOrCreate_fresh c item h1]
    obtain ⟨hb, hi⟩ := h
    constructor
    · intro p b hp
      simp only [Function.update] at hp
      by_cases hpe : p = item.ptr
      · simp [hpe] at hp
        simp only
        omega
      · simp [hpe] at hp
        have := hb p b hp
        simp only
        omega
    · intro p q b hp hq
      simp only [Function.update] at hp hq
      by_cases hpe : p = item.ptr <;> by_cases hqe : q = item.ptr
      · rw [hpe, hqe]
      · simp [hpe] at hp
        simp [hqe] at hq
        have := hb q b hq
        omega
      · simp [hpe] at hp
        simp [hqe] at hq
        have := hb p b hp
        omega
      · simp [hpe] at hp
        simp [hqe] at hq
        exact hi p q b hp hq

theorem buttonStep_entries (iconPos : buttonIconPosition) (current : Int) (i : Nat)
    (item : TabItem) (c : ButtonCache) :
    (buttonStep iconPos current i item c).1.entries = (getOrCreate c item).1.entries := rfl

theorem buttonStep_allocated (iconPos : buttonIconPosition) (current : Int) (i : Nat)
    (item : TabItem) (c : ButtonCache) :
    (buttonStep iconPos current i item c).1.allocated = (getOrCreate c item).1.allocated := rfl

theorem buttonStep_snd (iconPos : buttonIconPosition) (current : Int) (i : Nat)
    (item : TabItem) (c : ButtonCache) :
    (buttonStep iconPos current i item c).2 = (getOrCreate c item).2 := rfl

theorem buttonStep_entry (iconPos : buttonIconPosition) (current : Int) (i : Nat)
    (item : TabItem) (c : ButtonCache) :
    (buttonStep iconPos current i item c).1.entries item.ptr =
      some (buttonStep iconPos current i item c).2 :=
  getOrCreate_entry c item

theorem buttonStep_mono (iconPos : buttonIconPosition) (current : Int) (i : Nat)
    (item : TabItem) (c : ButtonCache) (p b : Nat) (h : c.entries p = some b) :
    (buttonStep iconPos current i item c).1.entries p = some b :=
  getOrCreate_mono c item p b h

theorem buttonStep_wf (iconPos : buttonIconPosition) (current : Int) (i : Nat)
    (item : TabItem) (c : ButtonCache) (h : CacheWF c) :
    CacheWF (buttonStep iconPos current i item c).1 :=
  getOrCreate_wf c item h

theorem buttonStep_buttons_other (iconPos : buttonIconPosition) (current : Int) (i : Nat)
    (item : TabItem) (c : ButtonCache) (a : Nat)
    (h : a ≠ (buttonStep iconPos current i item c).2) :
    (buttonStep iconPos current i item c).1.buttons a = c.buttons a := by
  rw [buttonStep_snd] at h
  simp only [buttonStep, Function.update, h, dite_false, eq_rec_constant]
  exact getOrCreate_buttons c item a h

theorem buttonStep_buttons_self (iconPos : buttonIconPosition) (current : Int) (i : Nat)
    (item : TabItem) (c : ButtonCache) :
    (buttonStep iconPos current i item c).1.buttons (buttonStep iconPos current i item c).2 =
      refreshButton iconPos current i item
        ((getOrCreate c item).1.buttons (getOrCreate c item).2) := by
  simp [buttonStep, Function.update]

theorem buttonStep_cached (iconPos : buttonIconPosition) (current : Int) (i : Nat)
    (item : TabItem) (c : ButtonCache) (b : Nat) (h : c.entries item.ptr = some b) :
    buttonStep iconPos current i item c =
      ({ c with buttons := Function.update c.buttons b
                  (refreshButton iconPos current i item (c.buttons b)) }, b) := by
  simp [buttonStep, getOrCreate_cached c item b h]

/-! ## The loop of `buildTabButtons` -/

theorem tabButtonsLoop_succ (items : List TabItem) (iconPos : buttonIconPosition)
    (current : Int) (n i : Nat) (c : ButtonCache) (objs : List CanvasObject) (item : TabItem)
    (h : items[i]? = some item) :
    tabButtonsLoop items iconPos current (n + 1) i c objs =
      tabButtonsLoop items iconPos current n (i + 1) (buttonStep iconPos current i item c).1
        (objs ++ [CanvasObject.tabButton (buttonStep iconPos current i item c).2]) := by
  simp [tabButtonsLoop, h]

theorem tabButtonsLoop_fault (items : List TabItem) (iconPos : buttonIconPosition)
    (current : Int) (n i : Nat) (c : ButtonCache) (objs : List CanvasObject)
    (h : items[i]? = none) :
    tabButtonsLoop items iconPos current (n + 1) i c objs = none := by
  simp [tabButtonsLoop, h]

theorem tabButtonsLoop_total (items : List TabItem) (iconPos : buttonIconPosition)
    (current : Int) :
    ∀ (n i : Nat) (c : ButtonCache) (objs : List CanvasObject), i + n ≤ items.length →
      ∃ x, tabButtonsLoop items iconPos current n i c objs = some x := by
  intro n
  induction n with
  | zero =>
    intro i c objs _
    exact ⟨(c, objs), rfl⟩
  | succ n ih =>
    intro i c objs h
    have hi : i < items.length := by omega
    have hget : items[i]? = some items[i] := List.getElem?_eq_getElem hi
    rw [tabButtonsLoop_succ items iconPos current n i c objs _ hget]
    exact ih (i + 1) _ _ (by omega)

theorem tabButtonsLoop_mono (items : List TabItem) (iconPos : buttonIconPosition)
    (current : Int) :
    ∀ (n i : Nat) (c : ButtonCache) (objs : List CanvasObject) (c' : ButtonCache)
      (objs' : List CanvasObject),
      tabButtonsLoop items iconPos current n i c objs = some (c', objs') →
      ∀ p b, c.entries p = some b → c'.entries p = some b := by
  intro n
  induction n with
  | zero =>
    intro i c objs c' objs' h p b hp
    simp only [tabButtonsLoop, Option.some.injEq, Prod.mk.injEq] at h
    rw [← h.1]
    exact hp
  | succ n ih =>
    intro i c objs c' objs' h p b hp
    cases hget : items[i]? with
    | none =>
      rw [tabButtonsLoop_fault items iconPos current n i c objs hget] at h
      cases h
    | some item =>
      rw [tabButtonsLoop_succ items iconPos current n i c objs item hget] at h
      exact ih _ _ _ _ _ h p b (buttonStep_mono iconPos current i item c p b hp)

theorem tabButtonsLoop_wf (items : List TabItem) (iconPos : buttonIconPosition)
    (current : Int) :
    ∀ (n i : Nat) (c : ButtonCache) (objs : List CanvasObject) (c' : ButtonCache)
      (objs' : List CanvasObject),
      tabButtonsLoop items iconPos current n i c objs = some (c', objs') →
      CacheWF c → CacheWF c' := by
  intro n
  induction n with
  | zero =>
    intro i c objs c' objs' h hwf
    simp only [tabButtonsLoop, Option.some.injEq, Prod.mk.injEq] at h
    rw [← h.1]
    exact hwf
  | succ n ih =>
    intro i c objs c' objs' h hwf
    cases hget : items[i]? with
    | none =>
      rw [tabButtonsLoop_fault items iconPos current n i c objs hget] at h
      cases h
    | some item =>
      rw [tabButtonsLoop_succ items iconPos current n i c objs item hget] at h
      exact ih _ _ _ _ _ h (buttonStep_wf iconPos current i item c hwf)

theorem tabButtonsLoop_objects (items : List TabItem) (iconPos : buttonIconPosition)
    (current : Int) :
    ∀ (n i : Nat) (c : ButtonCache) (objs : List CanvasObject) (c' : ButtonCache)
      (objs' : List CanvasObject),
      tabButtonsLoop items iconPos current n i c objs = some (c', objs') →
      ∃ news : List CanvasObject, objs' = objs ++ news ∧ news.length = n ∧
        ∀ j, j < n → ∃ item b, items[i + j]? = some item ∧
          c'.entries item.ptr = some b ∧ news[j]? = some (CanvasObject.tabButton b) := by
  intro n
  induction n with
  | zero =>
    intro i c objs c' objs' h
    simp only [tabButtonsLoop, Option.some.injEq, Prod.mk.injEq] at h
    refine ⟨[], ?_, rfl, ?_⟩
    · simp [h.2]
    · intro j hj
      omega
  | succ n ih =>
    intro i c objs c' objs' h
    cases hget : items[i]? with
    | none =>
      rw [tabButtonsLoop_fault items iconPos current n i c objs hget] at h
      cases h
    | some item =>
      rw [tabButtonsLoop_succ items iconPos current n i c objs item hget] at h
      obtain ⟨news, hobjs, hlen, hall⟩ := ih _ _ _ _ _ h
      refine ⟨CanvasObject.tabButton (buttonStep iconPos current i item c).2 :: news, ?_, ?_, ?_⟩
      · rw [hobjs]
        simp
      · simp [hlen]
      · intro j hj
        cases j with
        | zero =>
          refine ⟨item, (buttonStep iconPos current i item c).2, ?_, ?_, ?_⟩
          · simpa using hget
          · exact tabButtonsLoop_mono items iconPos current _ _ _ _ _ _ h _ _
              (buttonStep_entry iconPos current i item c)
          · simp
        | succ j =>
          obtain ⟨it, b, h1, h2, h3⟩ := hall j (by omega)
          refine ⟨it, b, ?_, h2, ?_⟩
          · have : i + (j + 1) = i + 1 + j := by omega
            rw [this]
            exact h1
          · simpa using h3

theorem tabButtonsLoop_frame (items : List TabItem) (iconPos : buttonIconPosition)
    (current : Int) :
    ∀ (n i : Nat) (c : ButtonCache) (objs : List CanvasObject) (c' : ButtonCache)
      (objs' : List CanvasObject),
      tabButtonsLoop items iconPos current n i c objs = some (c', objs') →
      ∀ a, (∀ j item, i ≤ j → j < i + n → items[j]? = some item →
              c'.entries item.ptr ≠ some a) →
        c'.buttons a = c.buttons a := by
  intro n
  induction n with
  | zero =>
    intro i c objs c' objs' h a _
    simp only [tabButtonsLoop, Option.some.injEq, Prod.mk.injEq] at h
    rw [← h.1]
  | succ n ih =>
    intro i c objs c' objs' h a ha
    cases hget : items[i]? with
    | none =>
      rw [tabButtonsLoop_fault items iconPos current n i c objs hget] at h
      cases h
    | some item =>
      rw [tabButtonsLoop_succ items iconPos current n i c objs item hget] at h
      have hent : c'.entries item.ptr = some (buttonStep iconPos current i item c).2 :=
        tabButtonsLoop_mono items iconPos current _ _ _ _ _ _ h _ _
          (buttonStep_entry iconPos current i item c)
      have hne : a ≠ (buttonStep iconPos current i item c).2 := by
        intro he
        apply ha i item (le_refl i) (by omega) hget
        rw [hent, he]
      rw [ih _ _ _ _ _ h a (fun j it h1 h2 h3 => ha j it (by omega) (by omega) h3)]
      exact buttonStep_buttons_other iconPos current i item c a hne

theorem refreshButton_congr (iconPos : buttonIconPosition) (current : Int) (i : Nat)
    (item : TabItem) (x y : tabButton) (h1 : x.onTapped = y.onTapped)
    (h2 : x.onClosed = y.onClosed) :
    refreshButton iconPos current i item x = refreshButton iconPos current i item y := by
  simp [refreshButton, h1, h2]

theorem refreshButton_onTapped (iconPos : buttonIconPosition) (current : Int) (i : Nat)
    (item : TabItem) (x : tabButton) :
    (refreshButton iconPos current i item x).onTapped = x.onTapped := rfl

theorem refreshButton_onClosed (iconPos : buttonIconPosition) (current : Int) (i : Nat)
    (item : TabItem) (x : tabButton) :
    (refreshButton iconPos current i item x).onClosed = x.onClosed := rfl

/-- Running the loop again on its own result gives the same result, whatever
the display fields of the buttons it writes were in between. -/
theorem tabButtonsLoop_again (items : List TabItem) (iconPos : buttonIconPosition)
    (current : Int) :
    ∀ (n i : Nat) (c : ButtonCache) (objs : List CanvasObject) (c' : ButtonCache)
      (objs' : List CanvasObject),
      tabButtonsLoop items iconPos current n i c objs = some (c', objs') →
      ∀ (h' : Nat → tabButton) (objs0 : List CanvasObject),
        (∀ a, (h' a).onTapped = (c'.buttons a).onTapped ∧
              (h' a).onClosed = (c'.buttons a).onClosed) →
        (∀ a, (∀ j item, i ≤ j → j < i + n → items[j]? = some item →
                c'.entries item.ptr ≠ some a) → h' a = c'.buttons a) →
        ∃ news, objs' = objs ++ news ∧
          tabButtonsLoop items iconPos current n i { c' with buttons := h' } objs0 =
            some (c', objs0 ++ news) := by
  intro n
  induction n with
  | zero =>
    intro i c objs c' objs' h h' objs0 _ hout
    simp only [tabButtonsLoop, Option.some.injEq, Prod.mk.injEq] at h
    refine ⟨[], by simp [h.2], ?_⟩
    have hfun : h' = c'.buttons := by
      funext a
      exact hout a (fun j item h1 h2 => by omega)
    simp [tabButtonsLoop, hfun]
  | succ n ih =>
    intro i c objs c' objs' h h' objs0 hsim hout
    cases hget : items[i]? with
    | none =>
      rw [tabButtonsLoop_fault items iconPos current n i c objs hget] at h
      cases h
    | some item =>
      rw [tabButtonsLoop_succ items iconPos current n i c objs item hget] at h
      have hent : c'.entries item.ptr = some (buttonStep iconPos current i item c).2 :=
        tabButtonsLoop_mono items iconPos current _ _ _ _ _ _ h _ _
          (buttonStep_entry iconPos current i item c)
      rw [tabButtonsLoop_succ items iconPos current n i _ objs0 item hget]
      rw [buttonStep_cached iconPos current i item { c' with buttons := h' }
        (buttonStep iconPos current i item c).2 hent]
      simp only
      obtain ⟨news, hobjs, hrun⟩ := ih _ _ _ _ _ h
        (Function.update h' (buttonStep iconPos current i item c).2
          (refreshButton iconPos current i item (h' (buttonStep iconPos current i item c).2)))
        (objs0 ++ [CanvasObject.tabButton (buttonStep iconPos current i item c).2])
        (by
          intro a
          by_cases hab : a = (buttonStep iconPos current i item c).2
          · subst hab
            simp only [Function.update_same, refreshButton_onTapped, refreshButton_onClosed]
            exact hsim _
          · simp only [Function.update_noteq hab]
            exact hsim a)
        (by
          intro a ha
          by_cases hab : a = (buttonStep iconPos current i item c).2
          · subst hab
            simp only [Function.update_same]
            have hfr := tabButtonsLoop_frame items iconPos current _ _ _ _ _ _ h _ ha
            rw [hfr, buttonStep_buttons_self]
            apply refreshButton_congr
            · rw [(hsim _).1, hfr, buttonStep_buttons_self, refreshButton_onTapped]
            · rw [(hsim _).2, hfr, buttonStep_buttons_self, refreshButton_onClosed]
          · simp only [Function.update_noteq hab]
            apply hout a
            intro j it h1 h2 h3
            by_cases hji : j = i
            · subst hji
              rw [hget] at h3
              cases h3
              rw [hent]
              intro he
              cases he
              exact hab rfl
            · exact ha j it (by omega) (by omega) h3)
      refine ⟨CanvasObject.tabButton (buttonStep iconPos current i item c).2 :: news, ?_, ?_⟩
      · rw [hobjs]
        simp
      · rw [hrun]
        simp

/-! ## `updateTabs` -/

theorem isTabButton_of_indexed (news : List CanvasObject)
    (h : ∀ j, j < news.length → ∃ b, news[j]? = some (CanvasObject.tabButton b)) :
    ∀ o ∈ news, isTabButton o = true := by
  intro o ho
  obtain ⟨j, hj, rfl⟩ := List.getElem_of_mem ho
  obtain ⟨b, hb⟩ := h j hj
  rw [List.getElem?_eq_getElem hj] at hb
  injection hb with hb
  rw [hb]
  rfl

theorem filter_tabs_append_add (news : List CanvasObject)
    (h : ∀ o ∈ news, isTabButton o = true) :
    ((news ++ [CanvasObject.addTabButton]).filter isTabButton).length = news.length := by
  rw [List.filter_append, List.filter_eq_self.mpr h]
  simp [isTabButton]

/-- The result of `updateTabs(max)`, written out: it never faults, and the
button container holds the buttons the loop of `buildTabButtons` produced for
the first `tabCount` items, then the add button. -/
theorem updateTabs_eq (host : Host F) (r : duplicateTabsRenderer F σ) (max : Int) :
    ∃ (c : ButtonCache) (news : List CanvasObject),
      tabButtonsLoop r.duplicateTabs.Items
        (buttonsArrangement host.IsMobile r.duplicateTabs.location
          (if (r.duplicateTabs.Items.length : Int) ≤ max
            then (r.duplicateTabs.Items.length : Int) else max)).2
        r.duplicateTabs.current
        (if (r.duplicateTabs.Items.length : Int) ≤ max
          then (r.duplicateTabs.Items.length : Int) else max).toNat 0 r.buttonCache [] =
        some (c, news) ∧
      updateTabs host r max = some
        { bar :=
            { Layout := if (r.duplicateTabs.Items.length : Int) ≤ max then BarLayout.MaxLayout
                else overflowLayout r.duplicateTabs.location
              Objects :=
                [BarObject.container
                  { Layout := (buttonsArrangement host.IsMobile r.duplicateTabs.location
                      (if (r.duplicateTabs.Items.length : Int) ≤ max
                        then (r.duplicateTabs.Items.length : Int) else max)).1
                    Objects := news ++ [CanvasObject.addTabButton] },
                 BarObject.object CanvasObject.overflowAction] }
          indicator := r.indicator
          actionHidden := decide ((r.duplicateTabs.Items.length : Int) ≤ max)
          buttonCache := c
          duplicateTabs := r.duplicateTabs } := by
  have hle : (if (r.duplicateTabs.Items.length : Int) ≤ max
      then (r.duplicateTabs.Items.length : Int) else max).toNat ≤
      r.duplicateTabs.Items.length := by
    split <;> omega
  obtain ⟨x, hx⟩ := tabButtonsLoop_total r.duplicateTabs.Items
    (buttonsArrangement host.IsMobile r.duplicateTabs.location
      (if (r.duplicateTabs.Items.length : Int) ≤ max
        then (r.duplicateTabs.Items.length : Int) else max)).2
    r.duplicateTabs.current
    (if (r.duplicateTabs.Items.length : Int) ≤ max
      then (r.duplicateTabs.Items.length : Int) else max).toNat 0 r.buttonCache []
    (by rw [Nat.zero_add]; exact hle)
  refine ⟨x.1, x.2, hx, ?_⟩
  unfold updateTabs buildTabButtons
  by_cases hm : (r.duplicateTabs.Items.length : Int) ≤ max
  · simp only [hm, if_true] at hx ⊢
    rw [hx]
    simp
  · simp only [hm, if_false] at hx ⊢
    rw [hx]
    simp

/-- What `updateTabs(max)` leaves behind. -/
theorem updateTabs_spec (host : Host F) (r : duplicateTabsRenderer F σ) (max : Int) :
    ∃ (r' : duplicateTabsRenderer F σ) (c : Container) (news : List CanvasObject),
      updateTabs host r max = some r' ∧
      r'.duplicateTabs = r.duplicateTabs ∧
      r'.indicator = r.indicator ∧
      r'.actionHidden = decide ((r.duplicateTabs.Items.length : Int) ≤ max) ∧
      r'.bar.Layout = (if (r.duplicateTabs.Items.length : Int) ≤ max then BarLayout.MaxLayout
        else overflowLayout r.duplicateTabs.location) ∧
      r'.bar.Objects = [BarObject.container c, BarObject.object CanvasObject.overflowAction] ∧
      c.Objects = news ++ [CanvasObject.addTabButton] ∧
      news.length = (if (r.duplicateTabs.Items.length : Int) ≤ max
        then (r.duplicateTabs.Items.length : Int) else max).toNat ∧
      (∀ j, j < news.length → ∃ item b, r.duplicateTabs.Items[j]? = some item ∧
        r'.buttonCache.entries item.ptr = some b ∧
        news[j]? = some (CanvasObject.tabButton b)) ∧
      (∀ p b, r.buttonCache.entries p = some b → r'.buttonCache.entries p = some b) ∧
      (CacheWF r.buttonCache → CacheWF r'.buttonCache) := by
  obtain ⟨c, news, hloop, hupd⟩ := updateTabs_eq host r max
  obtain ⟨news', hn, hlen, hall⟩ := tabButtonsLoop_objects _ _ _ _ _ _ _ _ _ hloop
  simp only [List.nil_append] at hn
  subst hn
  refine ⟨_, _, news, hupd, rfl, rfl, rfl, rfl, rfl, rfl, hlen, ?_, ?_, ?_⟩
  · intro j hj
    obtain ⟨item, b, h1, h2, h3⟩ := hall j (by rw [← hlen]; exact hj)
    rw [Nat.zero_add] at h1
    exact ⟨item, b, h1, h2, h3⟩
  · exact tabButtonsLoop_mono _ _ _ _ _ _ _ _ _ hloop
  · exact tabButtonsLoop_wf _ _ _ _ _ _ _ _ _ hloop

/-- The visible count after `updateTabs(max)`, from the shape of the bar. -/
theorem visibleCount_of_shape (r' : duplicateTabsRenderer F σ) (c : Container)
    (news : List CanvasObject) (rest : List BarObject)
    (hobj : r'.bar.Objects = BarObject.container c :: rest)
    (hc : c.Objects = news ++ [CanvasObject.addTabButton])
    (hall : ∀ j, j < news.length → ∃ b, news[j]? = some (CanvasObject.tabButton b)) :
    visibleCount r' = news.length := by
  unfold visibleCount
  rw [hobj]
  simp only
  rw [hc]
  exact filter_tabs_append_add news (isTabButton_of_indexed news hall)

theorem updateTabs_visibleCount (host : Host F) (r r' : duplicateTabsRenderer F σ)
    (max : Int) (h : updateTabs host r max = some r') :
    visibleCount r' = (if (r.duplicateTabs.Items.length : Int) ≤ max
        then (r.duplicateTabs.Items.length : Int) else max).toNat := by
  obtain ⟨r1, c, news, h1, _, _, _, _, hobj, hc, hlen, hall, _, _⟩ := updateTabs_spec host r max
  rw [h] at h1
  injection h1 with h1
  subst h1
  rw [← hlen]
  apply visibleCount_of_shape r' c news _ hobj hc
  intro j hj
  obtain ⟨_, b, _, _, h3⟩ := hall j hj
  exact ⟨b, h3⟩

/-- Calling `updateTabs(max)` on a renderer that already carries the bar, the
overflow flag and the cache of an `updateTabs(max)` result changes nothing. -/
theorem updateTabs_again (host : Host F) (r r1 r2 : duplicateTabsRenderer F σ) (max : Int)
    (h : updateTabs host r max = some r1)
    (hbar : r2.bar = r1.bar) (hact : r2.actionHidden = r1.actionHidden)
    (hcache : r2.buttonCache = r1.buttonCache)
    (hitems : r2.duplicateTabs.Items = r1.duplicateTabs.Items)
    (hcur : r2.duplicateTabs.current = r1.duplicateTabs.current)
    (hloc : r2.duplicateTabs.location = r1.duplicateTabs.location) :
    updateTabs host r2 max = some r2 := by
  obtain ⟨c, news, hloop, hupd⟩ := updateTabs_eq host r max
  rw [h] at hupd
  injection hupd with hupd
  have e1 : r1.duplicateTabs = r.duplicateTabs := by rw [hupd]
  have e2 : r1.buttonCache = c := by rw [hupd]
  rw [e1] at hitems hcur hloc
  obtain ⟨news2, hn2, hagain⟩ := tabButtonsLoop_again _ _ _ _ _ _ _ _ _ hloop c.buttons []
    (fun a => ⟨rfl, rfl⟩) (fun a _ => rfl)
  simp only [List.nil_append] at hn2 hagain
  subst hn2
  obtain ⟨c2, newsb, hloop2, hupd2⟩ := updateTabs_eq host r2 max
  rw [hitems, hcur, hloc, hcache, e2] at hloop2
  rw [hagain] at hloop2
  injection hloop2 with hloop2
  injection hloop2 with hc2 hnews2
  rw [hupd2, hitems, hloc, ← hc2, ← hnews2]
  congr 1
  cases r2 with
  | mk bar2 ind2 act2 cache2 tabs2 =>
    simp only at hbar hact hcache hitems hcur hloc
    subst hbar hact hcache
    rw [hupd]

/-! ## `updateIndicator` -/

theorem selectedObject_total (current : Int) (buttons : List CanvasObject)
    (h : ¬ current < 0) : ∃ o, selectedObject current buttons = some o := by
  unfold selectedObject
  by_cases hc : current ≥ (buttons.length : Int)
  · exact ⟨_, if_pos hc⟩
  · rw [if_neg hc]
    have hlt : current.toNat < buttons.length := by omega
    exact ⟨buttons[current.toNat], List.getElem?_eq_getElem hlt⟩

/-- On a renderer whose bar holds its button container, `updateIndicator`
returns, and changes the indicator only. -/
theorem updateIndicator_spec (host : Host F) (extent : Option (Size F)) (animate : Bool)
    (r : duplicateTabsRenderer F σ) (c : Container) (rest : List BarObject)
    (hobj : r.bar.Objects = BarObject.container c :: rest) :
    ∃ ind, updateIndicator host extent animate r = some { r with indicator := ind } := by
  unfold updateIndicator
  by_cases hc : r.duplicateTabs.current < 0
  · exact ⟨_, if_pos hc⟩
  · rw [if_neg hc, hobj]
    obtain ⟨o, ho⟩ := selectedObject_total r.duplicateTabs.current c.Objects hc
    simp only [ho]
    exact ⟨_, rfl⟩

/-- The indicator placement does not depend on the animate flag. -/
theorem updateIndicator_placement (host : Host F) (extent : Option (Size F))
    (a1 a2 : Bool) (r1 r2 s1 s2 : duplicateTabsRenderer F σ)
    (hbar : r1.bar = r2.bar) (hact : r1.actionHidden = r2.actionHidden)
    (hcache : r1.buttonCache = r2.buttonCache)
    (hcur : r1.duplicateTabs.current = r2.duplicateTabs.current)
    (hloc : r1.duplicateTabs.location = r2.duplicateTabs.location)
    (h1 : updateIndicator host extent a1 r1 = some s1)
    (h2 : updateIndicator host extent a2 r2 = some s2) :
    s1.indicator.placement = s2.indicator.placement ∧
      (s1.indicator = Indicator.hidden ↔ s2.indicator = Indicator.hidden) := by
  have hst : barState r1 = barState r2 := by
    simp [barState, hbar, hact, hcache]
  unfold updateIndicator at h1 h2
  rw [hcur, hloc, hbar, hst] at h1
  by_cases hc : r2.duplicateTabs.current < 0
  · rw [if_pos hc] at h1 h2
    injection h1 with h1
    injection h2 with h2
    rw [← h1, ← h2]
    simp
  · rw [if_neg hc] at h1 h2
    cases hobj : r2.bar.Objects with
    | nil =>
      rw [hobj] at h1
      simp at h1
    | cons o rest =>
      rw [hobj] at h1 h2
      cases o with
      | object o1 => simp at h1
      | container c =>
        simp only at h1 h2
        cases hsel : selectedObject r2.duplicateTabs.current c.Objects with
        | none =>
          rw [hsel] at h1
          simp at h1
        | some o =>
          rw [hsel] at h1 h2
          simp only [Option.some.injEq] at h1 h2
          rw [← h1, ← h2]
          simp [Indicator.placement]

/-! ## The loop of `Layout` -/

theorem updateTabs_tabs (host : Host F) (r r' : duplicateTabsRenderer F σ) (max : Int)
    (h : updateTabs host r max = some r') : r'.duplicateTabs = r.duplicateTabs := by
  obtain ⟨r1, _, _, h1, h2, _⟩ := updateTabs_spec host r max
  rw [h] at h1
  injection h1 with h1
  rw [h1]
  exact h2

theorem updateTabs_total (host : Host F) (r : duplicateTabsRenderer F σ) (max : Int) :
    ∃ r', updateTabs host r max = some r' := by
  obtain ⟨r1, _, _, h1, _⟩ := updateTabs_spec host r max
  exact ⟨r1, h1⟩

theorem loopState_tabs (host : Host F) (r : duplicateTabsRenderer F σ) :
    ∀ (d : Nat) (s : duplicateTabsRenderer F σ), loopState host r d = some s →
      s.duplicateTabs = r.duplicateTabs := by
  intro d
  induction d with
  | zero =>
    intro s h
    simp only [loopState, Option.some.injEq] at h
    rw [← h]
  | succ d ih =>
    intro s h
    simp only [loopState] at h
    cases hd : loopState host r d with
    | none =>
      rw [hd] at h
      cases h
    | some s1 =>
      rw [hd] at h
      rw [updateTabs_tabs host s1 s _ h]
      exact ih s1 hd

theorem loopState_succ (host : Host F) (r s : duplicateTabsRenderer F σ) (d : Nat)
    (h : loopState host r d = some s) :
    loopState host r (d + 1) =
      updateTabs host s ((r.duplicateTabs.Items.length - d : Nat) : Int) := by
  simp [loopState, h]

theorem candidateFits_of (host : Host F) (r c : duplicateTabsRenderer F σ) (size : Size F)
    (i : Nat) (h : candidate host r i = some c) :
    candidateFits host r size i = fits host c size := by
  simp [candidateFits, h]

theorem fitLoop_succ (host : Host F) (size : Size F) (i : Nat)
    (s r1 : duplicateTabsRenderer F σ)
    (h : updateTabs host s ((i + 1 : Nat) : Int) = some r1) :
    fitLoop host size (i + 1) s =
      if fits host r1 size then some r1 else fitLoop host size i r1 := by
  simp only [fitLoop, h]

/-- The loop of `Layout`, entered at candidate `i` after `d` iterations: it
returns, and unless `i = 0` it stops at the first candidate from `i` downwards
that fits, or at candidate 1 when none fits. -/
theorem fitLoop_spec (host : Host F) (size : Size F) (r : duplicateTabsRenderer F σ) :
    ∀ (i d : Nat) (s : duplicateTabsRenderer F σ),
      i + d = r.duplicateTabs.Items.length → loopState host r d = some s →
      ∃ r', fitLoop host size i s = some r' ∧
        ((i = 0 ∧ r' = s) ∨
         ∃ k, 1 ≤ k ∧ k ≤ i ∧ candidate host r k = some r' ∧
           (fits host r' size = true ∨ k = 1) ∧
           ∀ j, k < j → j ≤ i → candidateFits host r size j = false) := by
  intro i
  induction i with
  | zero =>
    intro d s _ _
    exact ⟨s, rfl, Or.inl ⟨rfl, rfl⟩⟩
  | succ i ih =>
    intro d s hd hs
    obtain ⟨r1, hr1⟩ := updateTabs_total host s ((i + 1 : Nat) : Int)
    have hnd : r.duplicateTabs.Items.length - d = i + 1 := by omega
    have hstate : loopState host r (d + 1) = some r1 := by
      rw [loopState_succ host r s d hs, hnd]
      exact hr1
    have hcand : candidate host r (i + 1) = some r1 := by
      unfold candidate
      have : r.duplicateTabs.Items.length - (i + 1) + 1 = d + 1 := by omega
      rw [this]
      exact hstate
    by_cases hfit : fits host r1 size = true
    · refine ⟨r1, ?_, Or.inr ⟨i + 1, by omega, le_refl _, hcand, Or.inl hfit, ?_⟩⟩
      · rw [fitLoop_succ host size i s r1 hr1, if_pos hfit]
      · intro j h1 h2
        omega
    · have hstep : fitLoop host size (i + 1) s = fitLoop host size i r1 := by
        rw [fitLoop_succ host size i s r1 hr1, if_neg hfit]
      obtain ⟨r', hr', hcase⟩ := ih (d + 1) r1 (by omega) hstate
      refine ⟨r', by rw [hstep]; exact hr', Or.inr ?_⟩
      have hfalse : candidateFits host r size (i + 1) = false := by
        rw [candidateFits_of host r r1 size (i + 1) hcand]
        simpa using hfit
      rcases hcase with ⟨hi0, hrs⟩ | ⟨k, hk1, hk2, hk3, hk4, hk5⟩
      · subst hi0
        subst hrs
        refine ⟨1, le_refl _, le_refl _, hcand, Or.inr rfl, ?_⟩
        intro j h1 h2
        omega
      · refine ⟨k, hk1, by omega, hk3, hk4, ?_⟩
        intro j h1 h2
        by_cases hj : j = i + 1
        · rw [hj]
          exact hfalse
        · exact hk5 j h1 (by omega)

/-- Every candidate count `i` in `1..n`: the loop's call `updateTabs(i)` returns
a bar with `i` tab buttons, and shows the overflow action exactly when `i < n`. -/
theorem candidate_spec (host : Host F) (r : duplicateTabsRenderer F σ) (i : Nat)
    (h1 : 1 ≤ i) (h2 : i ≤ r.duplicateTabs.Items.length) :
    ∃ c, candidate host r i = some c ∧ visibleCount c = i ∧
      c.duplicateTabs = r.duplicateTabs ∧
      (c.actionHidden = false ↔ i < r.duplicateTabs.Items.length) ∧
      ∃ ct, c.bar.Objects =
        [BarObject.container ct, BarObject.object CanvasObject.overflowAction] := by
  unfold candidate
  have hd : ∀ d, ∃ s, loopState host r d = some s := by
    intro d
    induction d with
    | zero => exact ⟨r, rfl⟩
    | succ d ih =>
      obtain ⟨s, hs⟩ := ih
      rw [loopState_succ host r s d hs]
      exact updateTabs_total host s _
  obtain ⟨s, hs⟩ := hd (r.duplicateTabs.Items.length - i)
  rw [loopState_succ host r s _ hs]
  have hst := loopState_tabs host r _ s hs
  have harg : r.duplicateTabs.Items.length - (r.duplicateTabs.Items.length - i) = i := by
    omega
  rw [harg]
  obtain ⟨c, ct, news, hc1, hc2, _, hc4, _, hc6, hc7, hc8, hc9, _, _⟩ :=
    updateTabs_spec host s (i : Int)
  refine ⟨c, hc1, ?_, hc2.trans hst, ?_, ⟨ct, hc6⟩⟩
  · rw [updateTabs_visibleCount host s c _ hc1, hst]
    split <;> omega
  · rw [hc4, hst]
    simp only [decide_eq_false_iff_not, Nat.cast_le, not_le]

/-! ## `Layout` -/

theorem fits_eq_governing (host : Host F) (r : duplicateTabsRenderer F σ) (size : Size F) :
    fits host r size =
      host.le (governing r.duplicateTabs.location (host.barMinSize (barState r)))
        (governing r.duplicateTabs.location size) := by
  unfold fits governing
  split <;> rfl

theorem fits_congr (host : Host F) (r1 r2 : duplicateTabsRenderer F σ) (size : Size F)
    (hbar : r1.bar = r2.bar) (hact : r1.actionHidden = r2.actionHidden)
    (hcache : r1.buttonCache = r2.buttonCache)
    (hloc : r1.duplicateTabs.location = r2.duplicateTabs.location) :
    fits host r1 size = fits host r2 size := by
  have hst : barState r1 = barState r2 := by
    simp [barState, hbar, hact, hcache]
  unfold fits
  rw [hst, hloc]

/-- Once its loop has returned a renderer whose bar holds the button container,
`Layout` returns: it sets the indicator and clears the transitioning flag. -/
theorem Layout_eq (host : Host F) (r r1 : duplicateTabsRenderer F σ) (size : Size F)
    (c : Container) (rest : List BarObject)
    (hloop : fitLoop host size r.duplicateTabs.Items.length r = some r1)
    (hobj : r1.bar.Objects = BarObject.container c :: rest) :
    ∃ ind,
      updateIndicator host (some size) r1.duplicateTabs.isTransitioning r1 =
        some { r1 with indicator := ind } ∧
      Layout host r size = some
        { r1 with
          indicator := ind
          duplicateTabs := { r1.duplicateTabs with isTransitioning := false } } := by
  obtain ⟨ind, hind⟩ := updateIndicator_spec host (some size)
    r1.duplicateTabs.isTransitioning r1 c rest hobj
  refine ⟨ind, hind, ?_⟩
  unfold Layout
  rw [hloop]
  simp only [hind]
  cases htr : r1.duplicateTabs.isTransitioning with
  | true => simp
  | false =>
    simp only [Bool.false_eq_true, if_false, Option.some.injEq]
    cases r1 with
    | mk bar1 ind1 act1 cache1 tabs1 =>
      cases tabs1 with
      | mk sz its f1 f2 f3 f4 f5 cur loc tr pm =>
        simp only at htr
        subst htr
        rfl

/-- A layout pass on a non-empty collection: the loop stops at a candidate `k`
in `1..n` that fits, or at `k = 1`, no larger candidate fits, and `Layout`
returns that candidate's renderer with the indicator set and the transitioning
flag cleared. -/
theorem Layout_result (host : Host F) (r : duplicateTabsRenderer F σ) (size : Size F)
    (hne : r.duplicateTabs.Items ≠ []) :
    ∃ (k : Nat) (r1 : duplicateTabsRenderer F σ) (ind : Indicator F),
      1 ≤ k ∧ k ≤ r.duplicateTabs.Items.length ∧ candidate host r k = some r1 ∧
      (fits host r1 size = true ∨ k = 1) ∧
      (∀ j, k < j → j ≤ r.duplicateTabs.Items.length →
        candidateFits host r size j = false) ∧
      updateIndicator host (some size) r1.duplicateTabs.isTransitioning r1 =
        some { r1 with indicator := ind } ∧
      Layout host r size = some
        { r1 with
          indicator := ind
          duplicateTabs := { r1.duplicateTabs with isTransitioning := false } } := by
  have hpos : 0 < r.duplicateTabs.Items.length := List.length_pos.mpr hne
  obtain ⟨r1, hloop, hcase⟩ :=
    fitLoop_spec host size r r.duplicateTabs.Items.length 0 r (by omega) rfl
  rcases hcase with ⟨h0, _⟩ | ⟨k, hk1, hk2, hk3, hk4, hk5⟩
  · omega
  · obtain ⟨c, hc1, _, _, _, ct, hct⟩ := candidate_spec host r k hk1 hk2
    rw [hk3] at hc1
    injection hc1 with hc1
    subst hc1
    obtain ⟨ind, hind, hlay⟩ := Layout_eq host r r1 size ct _ hloop hct
    exact ⟨k, r1, ind, hk1, hk2, hk3, hk4, hk5, hind, hlay⟩

/-- A layout pass on an empty collection leaves the bar as it was. -/
theorem Layout_empty (host : Host F) (r : duplicateTabsRenderer F σ) (size : Size F)
    (hnil : r.duplicateTabs.Items = []) (c : Container) (rest : List BarObject)
    (hobj : r.bar.Objects = BarObject.container c :: rest) :
    ∃ ind,
      updateIndicator host (some size) r.duplicateTabs.isTransitioning r =
        some { r with indicator := ind } ∧
      Layout host r size = some
        { r with
          indicator := ind
          duplicateTabs := { r.duplicateTabs with isTransitioning := false } } := by
  have hloop : fitLoop host size r.duplicateTabs.Items.length r = some r := by
    rw [hnil]
    rfl
  exact Layout_eq host r r size c rest hloop hobj

theorem updateTabs_synced (host : Host F) (r r' : duplicateTabsRenderer F σ) (max : Int)
    (hmax : 0 ≤ max) (h : updateTabs host r max = some r') : BarSynced r' := by
  have hv := updateTabs_visibleCount host r r' max h
  obtain ⟨r1, c, news, h1, h2, _, h4, h5, h6, _⟩ := updateTabs_spec host r max
  rw [h] at h1
  injection h1 with h1
  subst h1
  refine ⟨⟨c, h6⟩, ?_, ?_, ?_, ?_⟩
  · rw [hv, h2]
    split <;> omega
  · rw [hv, h4, h2]
    by_cases hm : (r.duplicateTabs.Items.length : Int) ≤ max
    · simp only [hm, decide_True, if_true, Int.toNat_ofNat]
      simp
    · simp only [hm, decide_False, if_false, true_iff]
      omega
  · intro hact
    rw [h4] at hact
    rw [h5, if_pos (by simpa using hact)]
  · intro hact
    rw [h4] at hact
    rw [h5, if_neg (by simpa using hact), h2]

theorem candidate_synced (host : Host F) (r c : duplicateTabsRenderer F σ) (k : Nat)
    (h : candidate host r k = some c) : BarSynced c := by
  unfold candidate at h
  simp only [loopState] at h
  cases hs : loopState host r (r.duplicateTabs.Items.length - k) with
  | none =>
    rw [hs] at h
    cases h
  | some s =>
    rw [hs] at h
    exact updateTabs_synced host s c _ (Int.natCast_nonneg _) h

theorem BarSynced_congr (r1 r2 : duplicateTabsRenderer F σ) (hbar : r2.bar = r1.bar)
    (hact : r2.actionHidden = r1.actionHidden)
    (hitems : r2.duplicateTabs.Items = r1.duplicateTabs.Items)
    (hloc : r2.duplicateTabs.location = r1.duplicateTabs.location)
    (h : BarSynced r1) : BarSynced r2 := by
  have hv : visibleCount r2 = visibleCount r1 := by
    unfold visibleCount
    rw [hbar]
  unfold BarSynced at h ⊢
  rw [hbar, hact, hitems, hloc, hv]
  exact h

theorem Layout_synced (host : Host F) (r r' : duplicateTabsRenderer F σ) (size : Size F)
    (hs : BarSynced r) (h : Layout host r size = some r') :
    BarSynced r' ∧ r'.duplicateTabs.Items = r.duplicateTabs.Items ∧
      r'.duplicateTabs.location = r.duplicateTabs.location ∧
      r'.duplicateTabs.current = r.duplicateTabs.current := by
  by_cases hne : r.duplicateTabs.Items = []
  · obtain ⟨c, hc⟩ := hs.1
    obtain ⟨ind, _, hlay⟩ := Layout_empty host r size hne c _ hc
    rw [h] at hlay
    injection hlay with hlay
    subst hlay
    exact ⟨BarSynced_congr r _ rfl rfl rfl rfl hs, rfl, rfl, rfl⟩
  · obtain ⟨k, r1, ind, hk1, hk2, hk3, _, _, _, hlay⟩ := Layout_result host r size hne
    rw [h] at hlay
    injection hlay with hlay
    subst hlay
    obtain ⟨c, hc1, _, hc3, _⟩ := candidate_spec host r k hk1 hk2
    rw [hk3] at hc1
    injection hc1 with hc1
    subst hc1
    refine ⟨BarSynced_congr r1 _ rfl rfl rfl rfl (candidate_synced host r r1 k hk3), ?_, ?_, ?_⟩
    · simp only [hc3]
    · simp only [hc3]
    · simp only [hc3]

theorem CreateRenderer_synced (host : Host F) (t : DuplicateTabs F σ) :
    ∃ r, CreateRenderer host t = some r ∧ BarSynced r ∧ r.duplicateTabs = t ∧
      CacheWF r.buttonCache := by
  unfold CreateRenderer
  obtain ⟨r1, c, news, h1, h2, _, _, _, h6, _, _, _, _, h11⟩ :=
    updateTabs_spec host (newRenderer t) 1
  rw [h1]
  simp only
  obtain ⟨ind, hind⟩ := updateIndicator_spec host none false r1 c _ h6
  rw [hind]
  have hs := updateTabs_synced host _ r1 1 (by omega) h1
  refine ⟨_, rfl, BarSynced_congr r1 _ rfl rfl rfl rfl hs, h2, ?_⟩
  apply h11
  constructor
  · intro p b hp
    cases hp
  · intro p q b hp
    cases hp

theorem Layout_total_synced (host : Host F) (r : duplicateTabsRenderer F σ) (size : Size F)
    (hs : BarSynced r) : ∃ r', Layout host r size = some r' := by
  by_cases hne : r.duplicateTabs.Items = []
  · obtain ⟨c, hc⟩ := hs.1
    obtain ⟨ind, _, hlay⟩ := Layout_empty host r size hne c _ hc
    exact ⟨_, hlay⟩
  · obtain ⟨k, r1, ind, _, _, _, _, _, _, hlay⟩ := Layout_result host r size hne
    exact ⟨_, hlay⟩

theorem layoutPasses_synced (host : Host F) :
    ∀ (sizes : List (Size F)) (r : duplicateTabsRenderer F σ), BarSynced r →
      ∃ r', layoutPasses host sizes r = some r' ∧ BarSynced r' ∧
        r'.duplicateTabs.Items = r.duplicateTabs.Items ∧
        r'.duplicateTabs.location = r.duplicateTabs.location ∧
        r'.duplicateTabs.current = r.duplicateTabs.current := by
  intro sizes
  induction sizes with
  | nil =>
    intro r hs
    exact ⟨r, rfl, hs, rfl, rfl, rfl⟩
  | cons size rest ih =>
    intro r hs
    obtain ⟨r1, hr1⟩ := Layout_total_synced host r size hs
    obtain ⟨hs1, hi1, hl1, hc1⟩ := Layout_synced host r r1 size hs hr1
    obtain ⟨r', hr', hs', hi', hl', hc'⟩ := ih r1 hs1
    refine ⟨r', ?_, hs', hi'.trans hi1, hl'.trans hl1, hc'.trans hc1⟩
    simp only [layoutPasses, hr1]
    exact hr'

theorem fits_mono (host : Host F)
    (htrans : ∀ a b c, host.le a b = true → host.le b c = true → host.le a c = true)
    (r : duplicateTabsRenderer F σ) (e1 e2 : Size F)
    (hle : host.le (governing r.duplicateTabs.location e1)
      (governing r.duplicateTabs.location e2) = true)
    (h : fits host r e1 = true) : fits host r e2 = true := by
  rw [fits_eq_governing] at h ⊢
  exact htrans _ _ _ h hle

/-- Monotonicity of the visible count in the available extent; for an empty
collection the bar must hold its button container. -/
theorem Layout_mono (host : Host F)
    (htrans : ∀ a b c, host.le a b = true → host.le b c = true → host.le a c = true)
    (r : duplicateTabsRenderer F σ)
    (hobj : r.duplicateTabs.Items = [] →
      ∃ c rest, r.bar.Objects = BarObject.container c :: rest) (e1 e2 : Size F)
    (hle : host.le (governing r.duplicateTabs.location e1)
      (governing r.duplicateTabs.location e2) = true) :
    ∃ r1 r2, Layout host r e1 = some r1 ∧ Layout host r e2 = some r2 ∧
      visibleCount r1 ≤ visibleCount r2 := by
  by_cases hne : r.duplicateTabs.Items = []
  · obtain ⟨c, rest, hobj⟩ := hobj hne
    obtain ⟨ind1, _, hlay1⟩ := Layout_empty host r e1 hne c rest hobj
    obtain ⟨ind2, _, hlay2⟩ := Layout_empty host r e2 hne c rest hobj
    exact ⟨_, _, hlay1, hlay2, le_refl _⟩
  · obtain ⟨k1, s1, ind1, ha1, ha2, ha3, ha4, _, _, hlay1⟩ := Layout_result host r e1 hne
    obtain ⟨k2, s2, ind2, hb1, hb2, hb3, _, hb5, _, hlay2⟩ := Layout_result host r e2 hne
    refine ⟨_, _, hlay1, hlay2, ?_⟩
    obtain ⟨c1, hc1, hv1, ht1, _⟩ := candidate_spec host r k1 ha1 ha2
    obtain ⟨c2, hc2, hv2, _⟩ := candidate_spec host r k2 hb1 hb2
    rw [ha3] at hc1
    injection hc1 with hc1
    subst hc1
    rw [hb3] at hc2
    injection hc2 with hc2
    subst hc2
    change visibleCount s1 ≤ visibleCount s2
    rw [hv1, hv2]
    by_contra hlt
    have hk : k2 < k1 := by omega
    have hno := hb5 k1 hk ha2
    rw [candidateFits_of host r s1 e2 k1 ha3] at hno
    rcases ha4 with hfit | hone
    · have := fits_mono host htrans s1 e1 e2 (by rw [ht1]; exact hle) hfit
      rw [this] at hno
      cases hno
    · omega

theorem tabs_clear_transitioning (t : DuplicateTabs F σ) (h : t.isTransitioning = false) :
    { t with isTransitioning := false } = t := by
  cases t with
  | mk sz its f1 f2 f3 f4 f5 cur loc tr pm =>
    simp only at h
    subst h
    rfl

/-- A second layout pass at the same extent, on the result of a pass whose loop
ended in `s1`: when `Layout` called again on that result ends its loop in the
result itself, nothing but the animate flag of the indicator can differ. -/
theorem Layout_second_pass (host : Host F) (s1 r1 : duplicateTabsRenderer F σ)
    (size : Size F) (ind : Indicator F) (c : Container) (rest : List BarObject)
    (hobj : s1.bar.Objects = BarObject.container c :: rest)
    (hind : updateIndicator host (some size) s1.duplicateTabs.isTransitioning s1 =
      some { s1 with indicator := ind })
    (hr1 : r1 = { s1 with
      indicator := ind
      duplicateTabs := { s1.duplicateTabs with isTransitioning := false } })
    (hloop : fitLoop host size r1.duplicateTabs.Items.length r1 = some r1) :
    ∃ r2, Layout host r1 size = some r2 ∧ r2.bar = r1.bar ∧
      r2.actionHidden = r1.actionHidden ∧ r2.buttonCache = r1.buttonCache ∧
      r2.duplicateTabs = r1.duplicateTabs ∧
      r2.indicator.placement = r1.indicator.placement ∧
      (r2.indicator = Indicator.hidden ↔ r1.indicator = Indicator.hidden) := by
  have hobj1 : r1.bar.Objects = BarObject.container c :: rest := by
    rw [hr1]
    exact hobj
  obtain ⟨ind2, hind2, hlay2⟩ := Layout_eq host r1 r1 size c rest hloop hobj1
  have htr : r1.duplicateTabs.isTransitioning = false := by rw [hr1]
  have hpl := updateIndicator_placement host (some size) _ _ r1 s1 _ _
    (by rw [hr1]) (by rw [hr1]) (by rw [hr1]) (by rw [hr1]) (by rw [hr1]) hind2 hind
  refine ⟨_, hlay2, rfl, rfl, rfl, tabs_clear_transitioning _ htr, ?_, ?_⟩
  · have : r1.indicator = ind := by rw [hr1]
    rw [this]
    exact hpl.1
  · have : r1.indicator = ind := by rw [hr1]
    rw [this]
    exact hpl.2

/-- Full fit is stable: when the bar built from all the items fits (and, for an
empty collection, the bar is the one built for it), `Layout` shows every item with the overflow action hidden, and a
second pass at the same extent changes nothing but the animate flag. -/
theorem Layout_full_fit (host : Host F) (r : duplicateTabsRenderer F σ) (size : Size F)
    (hs : r.duplicateTabs.Items = [] → BarSynced r)
    (hfit : candidateFits host r size r.duplicateTabs.Items.length = true) :
    ∃ r1 r2, Layout host r size = some r1 ∧
      visibleCount r1 = r.duplicateTabs.Items.length ∧
      r1.duplicateTabs.Items = r.duplicateTabs.Items ∧
      r1.actionHidden = true ∧ r1.bar.Layout = BarLayout.MaxLayout ∧
      Layout host r1 size = some r2 ∧ r2.bar = r1.bar ∧
      r2.actionHidden = r1.actionHidden ∧ r2.buttonCache = r1.buttonCache ∧
      r2.duplicateTabs = r1.duplicateTabs ∧
      r2.indicator.placement = r1.indicator.placement ∧
      (r2.indicator = Indicator.hidden ↔ r1.indicator = Indicator.hidden) := by
  by_cases hne : r.duplicateTabs.Items = []
  · obtain ⟨⟨c, hc⟩, hv, hact, hmax, _⟩ := hs hne
    obtain ⟨ind, hind, hlay⟩ := Layout_empty host r size hne c _ hc
    have hlen : r.duplicateTabs.Items.length = 0 := by rw [hne]; rfl
    have hv0 : visibleCount r = 0 := by omega
    have hhid : r.actionHidden = true := by
      cases hh : r.actionHidden with
      | true => rfl
      | false =>
        have := hact.mp hh
        omega
    obtain ⟨r2, h2⟩ := Layout_second_pass host r _ size ind c _ hc hind rfl
      (by
        show fitLoop host size r.duplicateTabs.Items.length _ = _
        rw [hlen]
        rfl)
    refine ⟨_, r2, hlay, ?_, rfl, hhid, hmax hhid, h2⟩
    rw [hlen]
    exact hv0
  · obtain ⟨k, s1, ind, hk1, hk2, hk3, _, hk5, hind, hlay⟩ := Layout_result host r size hne
    have hkn : k = r.duplicateTabs.Items.length := by
      by_contra hk
      have := hk5 r.duplicateTabs.Items.length (by omega) (le_refl _)
      rw [this] at hfit
      cases hfit
    subst hkn
    obtain ⟨c, hc1, hv, ht, hact, ct, hct⟩ := candidate_spec host r _ hk1 hk2
    rw [hk3] at hc1
    injection hc1 with hc1
    subst hc1
    have hsy := candidate_synced host r s1 _ hk3
    have hfits : fits host s1 size = true := by
      rw [← candidateFits_of host r s1 size _ hk3]
      exact hfit
    have hupd : updateTabs host r (r.duplicateTabs.Items.length : Int) = some s1 := by
      have := hk3
      unfold candidate at this
      rw [Nat.sub_self, loopState_succ host r r 0 rfl] at this
      exact this
    have hhid : s1.actionHidden = true := by
      cases hh : s1.actionHidden with
      | true => rfl
      | false =>
        have := hact.mp hh
        omega
    obtain ⟨n, hn⟩ : ∃ n, r.duplicateTabs.Items.length = n + 1 :=
      ⟨r.duplicateTabs.Items.length - 1, by omega⟩
    obtain ⟨r2, h2⟩ := Layout_second_pass host s1 _ size ind ct _ hct hind rfl
      (by
        show fitLoop host size s1.duplicateTabs.Items.length _ = _
        have hlen1 : s1.duplicateTabs.Items.length = n + 1 := by rw [ht]; exact hn
        rw [hlen1]
        have hagain := updateTabs_again host r s1
          { s1 with
            indicator := ind
            duplicateTabs := { s1.duplicateTabs with isTransitioning := false } }
          (r.duplicateTabs.Items.length : Int) hupd rfl rfl rfl rfl rfl rfl
        rw [hn] at hagain
        rw [fitLoop_succ host size n _ _ hagain]
        have hf := fits_congr host
          { s1 with
            indicator := ind
            duplicateTabs := { s1.duplicateTabs with isTransitioning := false } }
          s1 size rfl rfl rfl rfl
        rw [hf, hfits]
        rfl)
    refine ⟨_, r2, hlay, hv, ?_, hhid, hsy.2.2.2.1 hhid, h2⟩
    show s1.duplicateTabs.Items = _
    rw [ht]

/-! ## The cache across passes -/

/-- What a returning call of `buildTabButtons(count)` does to the cache, and
which buttons it puts in the container. -/
theorem buildTabButtons_cache (host : Host F) (r r' : duplicateTabsRenderer F σ)
    (count : Int) (ct : Container) (h : buildTabButtons host r count = some (ct, r')) :
    (∀ p b, r.buttonCache.entries p = some b → r'.buttonCache.entries p = some b) ∧
    (CacheWF r.buttonCache → CacheWF r'.buttonCache) ∧
    (∀ j, j < count.toNat → ∃ item b, r.duplicateTabs.Items[j]? = some item ∧
      ct.Objects[j]? = some (CanvasObject.tabButton b) ∧
      r'.buttonCache.entries item.ptr = some b) := by
  unfold buildTabButtons at h
  simp only at h
  cases hloop : tabButtonsLoop r.duplicateTabs.Items
      (buttonsArrangement host.IsMobile r.duplicateTabs.location count).2
      r.duplicateTabs.current count.toNat 0 r.buttonCache [] with
  | none =>
    rw [hloop] at h
    cases h
  | some x =>
    obtain ⟨c, objs⟩ := x
    rw [hloop] at h
    simp only [Option.some.injEq, Prod.mk.injEq] at h
    obtain ⟨hct, hr'⟩ := h
    subst hct
    subst hr'
    refine ⟨tabButtonsLoop_mono _ _ _ _ _ _ _ _ _ hloop,
      tabButtonsLoop_wf _ _ _ _ _ _ _ _ _ hloop, ?_⟩
    obtain ⟨news, hn, hlen, hall⟩ := tabButtonsLoop_objects _ _ _ _ _ _ _ _ _ hloop
    simp only [List.nil_append] at hn
    subst hn
    intro j hj
    obtain ⟨item, b, h1, h2, h3⟩ := hall j hj
    rw [Nat.zero_add] at h1
    refine ⟨item, b, h1, ?_, h2⟩
    simp only
    rw [List.getElem?_append_left (by rw [hlen]; exact hj)]
    exact h3

theorem updateTabs_cache (host : Host F) (r r' : duplicateTabsRenderer F σ) (max : Int)
    (h : updateTabs host r max = some r') :
    (∀ p b, r.buttonCache.entries p = some b → r'.buttonCache.entries p = some b) ∧
    (CacheWF r.buttonCache → CacheWF r'.buttonCache) := by
  obtain ⟨r1, _, _, h1, _, _, _, _, _, _, _, _, h10, h11⟩ := updateTabs_spec host r max
  rw [h] at h1
  injection h1 with h1
  subst h1
  exact ⟨h10, h11⟩

theorem updateIndicator_cache (host : Host F) (extent : Option (Size F)) (animate : Bool)
    (r r' : duplicateTabsRenderer F σ) (h : updateIndicator host extent animate r = some r') :
    r'.buttonCache = r.buttonCache := by
  unfold updateIndicator at h
  by_cases hc : r.duplicateTabs.current < 0
  · rw [if_pos hc] at h
    injection h with h
    rw [← h]
  · rw [if_neg hc] at h
    cases hobj : r.bar.Objects with
    | nil =>
      rw [hobj] at h
      simp at h
    | cons o rest =>
      rw [hobj] at h
      cases o with
      | object o1 => simp at h
      | container c =>
        simp only at h
        cases hsel : selectedObject r.duplicateTabs.current c.Objects with
        | none =>
          rw [hsel] at h
          simp at h
        | some o =>
          rw [hsel] at h
          simp only [Option.some.injEq] at h
          rw [← h]

theorem fitLoop_cache (host : Host F) (size : Size F) :
    ∀ (i : Nat) (r r' : duplicateTabsRenderer F σ), fitLoop host size i r = some r' →
      (∀ p b, r.buttonCache.entries p = some b → r'.buttonCache.entries p = some b) ∧
      (CacheWF r.buttonCache → CacheWF r'.buttonCache) := by
  intro i
  induction i with
  | zero =>
    intro r r' h
    simp only [fitLoop, Option.some.injEq] at h
    subst h
    exact ⟨fun _ _ hp => hp, fun hw => hw⟩
  | succ i ih =>
    intro r r' h
    obtain ⟨r1, hr1⟩ := updateTabs_total host r ((i + 1 : Nat) : Int)
    rw [fitLoop_succ host size i r r1 hr1] at h
    obtain ⟨hm, hw⟩ := updateTabs_cache host r r1 _ hr1
    by_cases hfit : fits host r1 size = true
    · rw [if_pos hfit] at h
      injection h with h
      subst h
      exact ⟨hm, hw⟩
    · rw [if_neg hfit] at h
      obtain ⟨hm2, hw2⟩ := ih r1 r' h
      exact ⟨fun p b hp => hm2 p b (hm p b hp), fun hwf => hw2 (hw hwf)⟩

theorem Layout_cache (host : Host F) (size : Size F) (r r' : duplicateTabsRenderer F σ)
    (h : Layout host r size = some r') :
    (∀ p b, r.buttonCache.entries p = some b → r'.buttonCache.entries p = some b) ∧
    (CacheWF r.buttonCache → CacheWF r'.buttonCache) := by
  unfold Layout at h
  cases hloop : fitLoop host size r.duplicateTabs.Items.length r with
  | none =>
    rw [hloop] at h
    cases h
  | some r1 =>
    rw [hloop] at h
    simp only at h
    cases hind : updateIndicator host (some size) r1.duplicateTabs.isTransitioning r1 with
    | none =>
      rw [hind] at h
      cases h
    | some r2 =>
      rw [hind] at h
      simp only at h
      have hc2 := updateIndicator_cache host _ _ r1 r2 hind
      have hc' : r'.buttonCache = r1.buttonCache := by
        split at h
        · injection h with h
          rw [← h]
          exact hc2
        · injection h with h
          rw [← h]
          exact hc2
      rw [hc']
      exact fitLoop_cache host size _ r r1 hloop

theorem runPass_cache (host : Host F) (p : Pass F σ) (r r' : duplicateTabsRenderer F σ)
    (h : runPass host p r = some r') :
    (∀ q b, r.buttonCache.entries q = some b → r'.buttonCache.entries q = some b) ∧
    (CacheWF r.buttonCache → CacheWF r'.buttonCache) := by
  cases p with
  | buildTabButtons count =>
    simp only [runPass, Option.map_eq_some'] at h
    obtain ⟨⟨ct, r1⟩, h1, h2⟩ := h
    simp only at h2
    subst h2
    obtain ⟨hm, hw, _⟩ := buildTabButtons_cache host r r1 count ct h1
    exact ⟨hm, hw⟩
  | updateTabs max => exact updateTabs_cache host r r' max h
  | Layout size => exact Layout_cache host size r r' h
  | mutate f =>
    simp only [runPass, Option.some.injEq] at h
    subst h
    exact ⟨fun _ _ hp => hp, fun hw => hw⟩

theorem runPasses_cache (host : Host F) :
    ∀ (ps : List (Pass F σ)) (r r' : duplicateTabsRenderer F σ),
      runPasses host ps r = some r' →
      (∀ q b, r.buttonCache.entries q = some b → r'.buttonCache.entries q = some b) ∧
      (CacheWF r.buttonCache → CacheWF r'.buttonCache) := by
  intro ps
  induction ps with
  | nil =>
    intro r r' h
    simp only [runPasses, Option.some.injEq] at h
    subst h
    exact ⟨fun _ _ hp => hp, fun hw => hw⟩
  | cons p rest ih =>
    intro r r' h
    simp only [runPasses] at h
    cases h1 : runPass host p r with
    | none =>
      rw [h1] at h
      cases h
    | some r1 =>
      rw [h1] at h
      simp only at h
      obtain ⟨hm, hw⟩ := runPass_cache host p r r1 h1
      obtain ⟨hm2, hw2⟩ := ih r1 r' h
      exact ⟨fun q b hq => hm2 q b (hm q b hq), fun hwf => hw2 (hw hwf)⟩

/-! ## The overflow menu and the indicator anchor -/

theorem menuItemsLoop_spec (items : List TabItem) :
    ∀ (n i : Nat) (acc : List MenuItem), i + n ≤ items.length →
      ∃ menu : List MenuItem, menuItemsLoop items n i acc = some (acc ++ menu) ∧
        menu.length = n ∧
        ∀ j, j < n → ∃ item, items[i + j]? = some item ∧
          menu[j]? = some ⟨item.Text, ((i + j : Nat) : Int)⟩ := by
  intro n
  induction n with
  | zero =>
    intro i acc _
    refine ⟨[], by simp [menuItemsLoop], rfl, ?_⟩
    intro j hj
    omega
  | succ n ih =>
    intro i acc h
    have hi : i < items.length := by omega
    have hget : items[i]? = some items[i] := List.getElem?_eq_getElem hi
    obtain ⟨menu, hrun, hlen, hall⟩ := ih (i + 1) (acc ++ [⟨items[i].Text, (i : Int)⟩])
      (by omega)
    refine ⟨⟨items[i].Text, (i : Int)⟩ :: menu, ?_, by simp [hlen], ?_⟩
    · simp only [menuItemsLoop, hget]
      rw [hrun]
      simp
    · intro j hj
      cases j with
      | zero => exact ⟨items[i], by simp, by simp⟩
      | succ j =>
        obtain ⟨item, h1, h2⟩ := hall j (by omega)
        refine ⟨item, ?_, ?_⟩
        · have : i + (j + 1) = i + 1 + j := by omega
          rw [this]
          exact h1
        · have : i + (j + 1) = i + 1 + j := by omega
          rw [this]
          simpa using h2

/-- The menu the overflow handler builds when the bar shows `k` tab buttons
(followed by the add button) out of `n > k` items: `n - k - 1` entries, entry
`j` being the item at index `k + 1 + j`. -/
theorem overflowTapped_spec (r : duplicateTabsRenderer F σ) (c : Container)
    (rest : List BarObject) (news : List CanvasObject)
    (hobj : r.bar.Objects = BarObject.container c :: rest)
    (hc : c.Objects = news ++ [CanvasObject.addTabButton])
    (hlt : news.length < r.duplicateTabs.Items.length) :
    ∃ r' menu, overflowTapped r = some r' ∧
      r'.duplicateTabs.popupMenu = some ⟨menu⟩ ∧
      menu.length = r.duplicateTabs.Items.length - news.length - 1 ∧
      ∀ j, j < menu.length → ∃ item,
        r.duplicateTabs.Items[news.length + 1 + j]? = some item ∧
        menu[j]? = some ⟨item.Text, ((news.length + 1 + j : Nat) : Int)⟩ := by
  have hlen : c.Objects.length = news.length + 1 := by
    rw [hc]
    simp
  obtain ⟨menu, hrun, hmlen, hall⟩ := menuItemsLoop_spec r.duplicateTabs.Items
    (r.duplicateTabs.Items.length - news.length - 1) (news.length + 1) [] (by omega)
  refine ⟨{ r with duplicateTabs := { r.duplicateTabs with popupMenu := some ⟨menu⟩ } },
    menu, ?_, rfl, hmlen, ?_⟩
  · unfold overflowTapped
    rw [hobj]
    simp only [hlen, Nat.cast_add, Nat.cast_one]
    have e1 : ((r.duplicateTabs.Items.length : Int) - ((news.length : Int) + 1)).toNat =
        r.duplicateTabs.Items.length - news.length - 1 := by omega
    have e2 : ¬ ((r.duplicateTabs.Items.length : Int) - ((news.length : Int) + 1) < 0) := by
      omega
    have e3 : ((news.length : Int) + 1).toNat = news.length + 1 := by omega
    rw [if_neg e2, e1, e3, hrun]
    simp
  · intro j hj
    exact hall j (by rw [← hmlen]; exact hj)

/-- With every item shown the overflow handler would fault. -/
theorem overflowTapped_full (r : duplicateTabsRenderer F σ) (c : Container)
    (rest : List BarObject) (news : List CanvasObject)
    (hobj : r.bar.Objects = BarObject.container c :: rest)
    (hc : c.Objects = news ++ [CanvasObject.addTabButton])
    (hall : news.length = r.duplicateTabs.Items.length) :
    overflowTapped r = none := by
  have hlen : c.Objects.length = news.length + 1 := by
    rw [hc]
    simp
  unfold overflowTapped
  rw [hobj]
  simp only
  rw [if_pos]
  rw [hlen, hall]
  omega

/-- The object `updateIndicator` reads when `current` equals the number of tab
buttons: the add button that follows them. -/
theorem selectedObject_at_count (news : List CanvasObject) :
    selectedObject (news.length : Int) (news ++ [CanvasObject.addTabButton]) =
      some CanvasObject.addTabButton := by
  unfold selectedObject
  rw [if_neg (by simp)]
  simp

/-- The object `updateIndicator` reads when `current` is past the number of
tab buttons: the overflow action. -/
theorem selectedObject_past_count (news : List CanvasObject) (current : Int)
    (h : (news.length : Int) < current) :
    selectedObject current (news ++ [CanvasObject.addTabButton]) =
      some CanvasObject.overflowAction := by
  unfold selectedObject
  rw [if_pos]
  simp only [List.length_append, List.length_singleton, Nat.cast_add, Nat.cast_one]
  omega

/-- The object `updateIndicator` reads when `0 <= current < ` the number of
tab buttons: the tab button at that index. -/
theorem selectedObject_below_count (news : List CanvasObject) (current : Nat)
    (h : current < news.length) :
    selectedObject (current : Int) (news ++ [CanvasObject.addTabButton]) =
      news[current]? := by
  unfold selectedObject
  rw [if_neg]
  · simp only [Int.toNat_ofNat]
    exact List.getElem?_append_left h
  · simp only [List.length_append, List.length_singleton, Nat.cast_add, Nat.cast_one]
    omega

/-! ## The claims -/

/-- C1: on a non-empty collection of `n` items `Layout` returns, and the number
`k` of tab buttons it leaves in the bar satisfies `1 ≤ k ≤ n`; no candidate
count larger than `k` gives a bar that fits the available extent; and either
the bar for `k` fits, or no candidate in `1..n` fits and `k = 1`. Each candidate
`i` in `1..n` is the bar built by the loop's call `updateTabs(i)`: it has `i`
tab buttons and shows the overflow action exactly when `i < n`. -/
theorem Layout_shows_largest_fitting_count (host : Host F)
    (r : duplicateTabsRenderer F σ) (size : Size F) (hne : r.duplicateTabs.Items ≠ []) :
    ∃ r', Layout host r size = some r' ∧
      1 ≤ visibleCount r' ∧ visibleCount r' ≤ r.duplicateTabs.Items.length ∧
      (∀ j, visibleCount r' < j → j ≤ r.duplicateTabs.Items.length →
        candidateFits host r size j = false) ∧
      (candidateFits host r size (visibleCount r') = true ∨
        (visibleCount r' = 1 ∧
          ∀ j, 1 ≤ j → j ≤ r.duplicateTabs.Items.length →
            candidateFits host r size j = false)) ∧
      (∀ i, 1 ≤ i → i ≤ r.duplicateTabs.Items.length →
        ∃ c, candidate host r i = some c ∧ visibleCount c = i ∧
          (c.actionHidden = false ↔ i < r.duplicateTabs.Items.length)) := by
  obtain ⟨k, r1, ind, hk1, hk2, hk3, hk4, hk5, _, hlay⟩ := Layout_result host r size hne
  obtain ⟨c, hc1, hv, _, _, _⟩ := candidate_spec host r k hk1 hk2
  rw [hk3] at hc1
  injection hc1 with hc1
  subst hc1
  have hvis : visibleCount
      ({ r1 with
         indicator := ind
         duplicateTabs := { r1.duplicateTabs with isTransitioning := false } } :
        duplicateTabsRenderer F σ) = k := hv
  refine ⟨_, hlay, ?_, ?_, ?_, ?_, ?_⟩
  · rw [hvis]
    exact hk1
  · rw [hvis]
    exact hk2
  · rw [hvis]
    exact hk5
  · rw [hvis]
    by_cases hfit : fits host r1 size = true
    · left
      rw [candidateFits_of host r r1 size k hk3]
      exact hfit
    · right
      have hone : k = 1 := by
        rcases hk4 with h | h
        · exact absurd h hfit
        · exact h
      refine ⟨hone, ?_⟩
      intro j hj1 hj2
      by_cases hj : j = k
      · rw [hj, candidateFits_of host r r1 size k hk3]
        simpa using hfit
      · exact hk5 j (by omega) hj2
  · intro i hi1 hi2
    obtain ⟨c, hc1, hc2, _, hc4, _⟩ := candidate_spec host r i hi1 hi2
    exact ⟨c, hc1, hc2, hc4⟩

/-- Witness for C1: the five demo items at extent 45. -/
theorem Layout_shows_largest_fitting_count_witness :
    demoRenderer.duplicateTabs.Items ≠ [] ∧
    ∃ r', Layout demoHost demoRenderer ⟨45, 45⟩ = some r' ∧
      1 ≤ visibleCount r' ∧ visibleCount r' ≤ demoRenderer.duplicateTabs.Items.length ∧
      (∀ j, visibleCount r' < j → j ≤ demoRenderer.duplicateTabs.Items.length →
        candidateFits demoHost demoRenderer ⟨45, 45⟩ j = false) ∧
      (candidateFits demoHost demoRenderer ⟨45, 45⟩ (visibleCount r') = true ∨
        (visibleCount r' = 1 ∧
          ∀ j, 1 ≤ j → j ≤ demoRenderer.duplicateTabs.Items.length →
            candidateFits demoHost demoRenderer ⟨45, 45⟩ j = false)) ∧
      (∀ i, 1 ≤ i → i ≤ demoRenderer.duplicateTabs.Items.length →
        ∃ c, candidate demoHost demoRenderer i = some c ∧ visibleCount c = i ∧
          (c.actionHidden = false ↔ i < demoRenderer.duplicateTabs.Items.length)) :=
  ⟨by decide, Layout_shows_largest_fitting_count demoHost demoRenderer ⟨45, 45⟩ (by decide)⟩

/-- C5: fit monotonicity. For a fixed renderer (items, placement and measuring
host fixed; for an empty collection the bar must hold its button container, as
it does after `CreateRenderer`), a host comparison that is transitive, and two
extents with `e1 <= e2` in the governing dimension, both layout passes return
and the visible count for `e1` is at most the visible count for `e2`. -/
theorem Layout_visible_count_monotone (host : Host F)
    (htrans : ∀ a b c, host.le a b = true → host.le b c = true → host.le a c = true)
    (r : duplicateTabsRenderer F σ)
    (hobj : r.duplicateTabs.Items = [] →
      ∃ c rest, r.bar.Objects = BarObject.container c :: rest) (e1 e2 : Size F)
    (hle : host.le (governing r.duplicateTabs.location e1)
      (governing r.duplicateTabs.location e2) = true) :
    ∃ r1 r2, Layout host r e1 = some r1 ∧ Layout host r e2 = some r2 ∧
      visibleCount r1 ≤ visibleCount r2 :=
  Layout_mono host htrans r hobj e1 e2 hle

/-- Witness for C5: the demo renderer at extents 45 and 60. -/
theorem Layout_visible_count_monotone_witness :
    (∀ a b c : Int, demoHost.le a b = true → demoHost.le b c = true →
      demoHost.le a c = true) ∧
    (demoRenderer.duplicateTabs.Items = [] →
      ∃ c rest, demoRenderer.bar.Objects = BarObject.container c :: rest) ∧
    demoHost.le (governing demoRenderer.duplicateTabs.location (⟨45, 45⟩ : Size Int))
      (governing demoRenderer.duplicateTabs.location (⟨60, 60⟩ : Size Int)) = true ∧
    ∃ r1 r2, Layout demoHost demoRenderer ⟨45, 45⟩ = some r1 ∧
      Layout demoHost demoRenderer ⟨60, 60⟩ = some r2 ∧
      visibleCount r1 ≤ visibleCount r2 :=
  ⟨fun a b c h1 h2 => by
      simp only [demoHost, decide_eq_true_eq] at h1 h2 ⊢
      exact le_trans h1 h2,
    fun h => absurd h (by decide), by decide,
    Layout_visible_count_monotone demoHost
      (fun a b c h1 h2 => by
        simp only [demoHost, decide_eq_true_eq] at h1 h2 ⊢
        exact le_trans h1 h2)
      demoRenderer (fun h => absurd h (by decide)) ⟨45, 45⟩ ⟨60, 60⟩ (by decide)⟩

/-- The overflow mode `updateTabs` sets. For `max ≥ 0` (every call in the file
passes a positive count), `updateTabs(max)` on `n` items returns with visible count `min(n, max)`; the
overflow action is shown exactly when the visible count is below `n`; when the
count is `n` the action is hidden and the bar has the max layout; when it is
below `n` the action is shown and the bar has a border layout with the action
at the bottom (leading or trailing placement) or at the right (otherwise). The
same relation between action, count and layout holds after every sequence of
layout passes that follows. -/
theorem updateTabs_sets_overflow_mode (host : Host F) (r : duplicateTabsRenderer F σ)
    (max : Int) (hmax : 0 ≤ max) :
    ∃ r', updateTabs host r max = some r' ∧
      visibleCount r' = min r.duplicateTabs.Items.length max.toNat ∧
      (r'.actionHidden = false ↔ visibleCount r' < r.duplicateTabs.Items.length) ∧
      (visibleCount r' = r.duplicateTabs.Items.length →
        r'.actionHidden = true ∧ r'.bar.Layout = BarLayout.MaxLayout) ∧
      (visibleCount r' < r.duplicateTabs.Items.length →
        r'.actionHidden = false ∧
        r'.bar.Layout =
          if r.duplicateTabs.location = TabLocation.TabLocationLeading ∨
              r.duplicateTabs.location = TabLocation.TabLocationTrailing then
            BarLayout.BorderLayout none (some CanvasObject.overflowAction) none none
          else
            BarLayout.BorderLayout none none none (some CanvasObject.overflowAction)) ∧
      (∀ sizes : List (Size F), ∃ r'', layoutPasses host sizes r' = some r'' ∧
        visibleCount r'' ≤ r.duplicateTabs.Items.length ∧
        (r''.actionHidden = false ↔ visibleCount r'' < r.duplicateTabs.Items.length) ∧
        (r''.actionHidden = true → r''.bar.Layout = BarLayout.MaxLayout) ∧
        (r''.actionHidden = false →
          r''.bar.Layout =
            if r.duplicateTabs.location = TabLocation.TabLocationLeading ∨
                r.duplicateTabs.location = TabLocation.TabLocationTrailing then
              BarLayout.BorderLayout none (some CanvasObject.overflowAction) none none
            else
              BarLayout.BorderLayout none none none (some CanvasObject.overflowAction))) := by
  obtain ⟨r', hr'⟩ := updateTabs_total host r max
  have hv := updateTabs_visibleCount host r r' max hr'
  have ht := updateTabs_tabs host r r' max hr'
  have hs := updateTabs_synced host r r' max hmax hr'
  have hvmin : visibleCount r' = min r.duplicateTabs.Items.length max.toNat := by
    rw [hv]
    split <;> omega
  obtain ⟨_, hs2, hs3, hs4, hs5⟩ := hs
  rw [ht] at hs2 hs3 hs5
  unfold overflowLayout at hs5
  have hhid : ∀ x : duplicateTabsRenderer F σ,
      (x.actionHidden = false ↔ visibleCount x < r.duplicateTabs.Items.length) →
      visibleCount x = r.duplicateTabs.Items.length → x.actionHidden = true := by
    intro x hx hxe
    cases hh : x.actionHidden with
    | true => rfl
    | false =>
      have := hx.mp hh
      omega
  refine ⟨r', hr', hvmin, hs3, ?_, ?_, ?_⟩
  · intro he
    exact ⟨hhid r' hs3 he, hs4 (hhid r' hs3 he)⟩
  · intro hlt
    exact ⟨hs3.mpr hlt, hs5 (hs3.mpr hlt)⟩
  · intro sizes
    obtain ⟨r'', hr'', hsy, hi, hl, _⟩ := layoutPasses_synced host sizes r'
      (updateTabs_synced host r r' max hmax hr')
    obtain ⟨_, hb2, hb3, hb4, hb5⟩ := hsy
    rw [hi, ht] at hb2 hb3
    rw [hl, ht] at hb5
    unfold overflowLayout at hb5
    exact ⟨r'', hr'', hb2, hb3, hb4, hb5⟩

/-- The overflow mode at a concrete input: `updateTabs(3)` on the five demo items. -/
theorem updateTabs_sets_overflow_mode_witness :
    (0 : Int) ≤ 3 ∧
    ∃ r', updateTabs demoHost demoRenderer 3 = some r' ∧
      visibleCount r' = min demoRenderer.duplicateTabs.Items.length (3 : Int).toNat ∧
      (r'.actionHidden = false ↔
        visibleCount r' < demoRenderer.duplicateTabs.Items.length) ∧
      (visibleCount r' = demoRenderer.duplicateTabs.Items.length →
        r'.actionHidden = true ∧ r'.bar.Layout = BarLayout.MaxLayout) ∧
      (visibleCount r' < demoRenderer.duplicateTabs.Items.length →
        r'.actionHidden = false ∧
        r'.bar.Layout =
          if demoRenderer.duplicateTabs.location = TabLocation.TabLocationLeading ∨
              demoRenderer.duplicateTabs.location = TabLocation.TabLocationTrailing then
            BarLayout.BorderLayout none (some CanvasObject.overflowAction) none none
          else
            BarLayout.BorderLayout none none none (some CanvasObject.overflowAction)) ∧
      (∀ sizes : List (Size Int), ∃ r'', layoutPasses demoHost sizes r' = some r'' ∧
        visibleCount r'' ≤ demoRenderer.duplicateTabs.Items.length ∧
        (r''.actionHidden = false ↔
          visibleCount r'' < demoRenderer.duplicateTabs.Items.length) ∧
        (r''.actionHidden = true → r''.bar.Layout = BarLayout.MaxLayout) ∧
        (r''.actionHidden = false →
          r''.bar.Layout =
            if demoRenderer.duplicateTabs.location = TabLocation.TabLocationLeading ∨
                demoRenderer.duplicateTabs.location = TabLocation.TabLocationTrailing then
              BarLayout.BorderLayout none (some CanvasObject.overflowAction) none none
            else
              BarLayout.BorderLayout none none none (some CanvasObject.overflowAction))) :=
  ⟨by decide, updateTabs_sets_overflow_mode demoHost demoRenderer 3 (by decide)⟩

/-- Full fit is idempotent when the bar is in step with the collection. Take
any renderer of a non-empty collection, or,
for an empty collection, a renderer made by `CreateRenderer` and taken through
layout passes. At an extent at which the bar built from all `n` items fits,
`Layout` returns with visible count `n`, the overflow action hidden and the max
layout; a second `Layout` at the same extent returns too and leaves the bar (so
the visible count, the bar mode and the button of each item), the overflow
flag, the button cache, the widget and the indicator placement unchanged. -/
theorem Layout_full_fit_idempotent (host : Host F) (r : duplicateTabsRenderer F σ)
    (size : Size F)
    (hr : r.duplicateTabs.Items = [] →
      ∃ (t : DuplicateTabs F σ) (sizes : List (Size F)) (r0 : duplicateTabsRenderer F σ),
        CreateRenderer host t = some r0 ∧ layoutPasses host sizes r0 = some r)
    (hfit : candidateFits host r size r.duplicateTabs.Items.length = true) :
    ∃ r1 r2, Layout host r size = some r1 ∧
      visibleCount r1 = r.duplicateTabs.Items.length ∧
      r1.duplicateTabs.Items = r.duplicateTabs.Items ∧
      r1.actionHidden = true ∧ r1.bar.Layout = BarLayout.MaxLayout ∧
      Layout host r1 size = some r2 ∧ r2.bar = r1.bar ∧
      r2.actionHidden = r1.actionHidden ∧ r2.buttonCache = r1.buttonCache ∧
      r2.duplicateTabs = r1.duplicateTabs ∧
      r2.indicator.placement = r1.indicator.placement ∧
      (r2.indicator = Indicator.hidden ↔ r1.indicator = Indicator.hidden) := by
  apply Layout_full_fit host r size _ hfit
  intro hnil
  obtain ⟨t, sizes, r0, h0, hpass⟩ := hr hnil
  obtain ⟨ra, ha, hsa, _, _⟩ := CreateRenderer_synced host t
  rw [h0] at ha
  injection ha with ha
  subst ha
  obtain ⟨rb, hb, hsb, _⟩ := layoutPasses_synced host sizes r0 hsa
  rw [hpass] at hb
  injection hb with hb
  subst hb
  exact hsb

/-- Idempotent full fit at a concrete input: the demo renderer after a pass at
extent 45, then extent 60. -/
theorem Layout_full_fit_idempotent_witness :
    (demoLaidOut.duplicateTabs.Items = [] →
      ∃ (t : DuplicateTabs Int Nat) (sizes : List (Size Int))
        (r0 : duplicateTabsRenderer Int Nat),
        CreateRenderer demoHost t = some r0 ∧
        layoutPasses demoHost sizes r0 = some demoLaidOut) ∧
    candidateFits demoHost demoLaidOut ⟨60, 60⟩ demoLaidOut.duplicateTabs.Items.length =
      true ∧
    ∃ r1 r2, Layout demoHost demoLaidOut ⟨60, 60⟩ = some r1 ∧
      visibleCount r1 = demoLaidOut.duplicateTabs.Items.length ∧
      r1.duplicateTabs.Items = demoLaidOut.duplicateTabs.Items ∧
      r1.actionHidden = true ∧ r1.bar.Layout = BarLayout.MaxLayout ∧
      Layout demoHost r1 ⟨60, 60⟩ = some r2 ∧ r2.bar = r1.bar ∧
      r2.actionHidden = r1.actionHidden ∧ r2.buttonCache = r1.buttonCache ∧
      r2.duplicateTabs = r1.duplicateTabs ∧
      r2.indicator.placement = r1.indicator.placement ∧
      (r2.indicator = Indicator.hidden ↔ r1.indicator = Indicator.hidden) :=
  ⟨fun _ => ⟨demoTabs, [⟨45, 45⟩], demoRenderer, rfl, rfl⟩, by decide,
    Layout_full_fit_idempotent demoHost demoLaidOut ⟨60, 60⟩
      (fun _ => ⟨demoTabs, [⟨45, 45⟩], demoRenderer, rfl, rfl⟩) (by decide)⟩

/-- C9: cache identity stability. Take a renderer made by `CreateRenderer`
through any passes (`buildTabButtons`, `updateTabs`, `Layout`, changes to the
widget) to `r1`, and through any further passes to `r2`. Then every item that
had a button in `r1` has the same button in `r2`; two distinct items never
have the same button; and every `updateTabs` call on `r2` returns a bar whose
`j`-th tab button is the button cached for `Items[j]`, which is the one the
item already had if it had one. -/
theorem buttonCache_identity_stable (host : Host F) (t : DuplicateTabs F σ)
    (ps1 ps2 : List (Pass F σ)) (r0 r1 r2 : duplicateTabsRenderer F σ)
    (h0 : CreateRenderer host t = some r0) (h1 : runPasses host ps1 r0 = some r1)
    (h2 : runPasses host ps2 r1 = some r2) :
    (∀ p b, r1.buttonCache.entries p = some b → r2.buttonCache.entries p = some b) ∧
    (∀ p q b, r2.buttonCache.entries p = some b → r2.buttonCache.entries q = some b →
      p = q) ∧
    (∀ max : Int, ∃ r3 news, updateTabs host r2 max = some r3 ∧
      barButtons r3 = news ++ [CanvasObject.addTabButton] ∧
      (∀ p q b, r3.buttonCache.entries p = some b → r3.buttonCache.entries q = some b →
        p = q) ∧
      ∀ j, j < news.length → ∃ item b, r2.duplicateTabs.Items[j]? = some item ∧
        news[j]? = some (CanvasObject.tabButton b) ∧
        r3.buttonCache.entries item.ptr = some b ∧
        ∀ b0, r2.buttonCache.entries item.ptr = some b0 → b = b0) := by
  obtain ⟨ra, ha, _, _, hwf0⟩ := CreateRenderer_synced host t
  rw [h0] at ha
  injection ha with ha
  subst ha
  obtain ⟨_, hw1⟩ := runPasses_cache host ps1 r0 r1 h1
  obtain ⟨hm2, hw2⟩ := runPasses_cache host ps2 r1 r2 h2
  have hwf2 : CacheWF r2.buttonCache := hw2 (hw1 hwf0)
  refine ⟨hm2, hwf2.2, ?_⟩
  intro max
  obtain ⟨r3, c, news, hu, _, _, _, _, hobj, hc, _, hall, hmono, hwf⟩ :=
    updateTabs_spec host r2 max
  refine ⟨r3, news, hu, ?_, (hwf hwf2).2, ?_⟩
  · unfold barButtons
    rw [hobj]
    exact hc
  · intro j hj
    obtain ⟨item, b, hi, hb, hn⟩ := hall j hj
    refine ⟨item, b, hi, hn, hb, ?_⟩
    intro b0 hb0
    have := hmono _ _ hb0
    rw [hb] at this
    injection this

/-- Witness for C9: the demo renderer, a layout pass, then three more passes. -/
theorem buttonCache_identity_stable_witness :
    CreateRenderer demoHost demoTabs = some demoRenderer ∧
    runPasses demoHost [Pass.Layout ⟨45, 45⟩] demoRenderer = some demoLaidOut ∧
    runPasses demoHost
      [Pass.updateTabs 5, Pass.mutate (fun t => { t with current := 4 }),
       Pass.buildTabButtons 2] demoLaidOut = some demoReworked ∧
    (∀ p b, demoLaidOut.buttonCache.entries p = some b →
      demoReworked.buttonCache.entries p = some b) ∧
    (∀ p q b, demoReworked.buttonCache.entries p = some b →
      demoReworked.buttonCache.entries q = some b → p = q) ∧
    (∀ max : Int, ∃ r3 news, updateTabs demoHost demoReworked max = some r3 ∧
      barButtons r3 = news ++ [CanvasObject.addTabButton] ∧
      (∀ p q b, r3.buttonCache.entries p = some b → r3.buttonCache.entries q = some b →
        p = q) ∧
      ∀ j, j < news.length → ∃ item b, demoReworked.duplicateTabs.Items[j]? = some item ∧
        news[j]? = some (CanvasObject.tabButton b) ∧
        r3.buttonCache.entries item.ptr = some b ∧
        ∀ b0, demoReworked.buttonCache.entries item.ptr = some b0 → b = b0) :=
  ⟨rfl, rfl, rfl,
    buttonCache_identity_stable demoHost demoTabs [Pass.Layout ⟨45, 45⟩]
      [Pass.updateTabs 5, Pass.mutate (fun t => { t with current := 4 }),
       Pass.buildTabButtons 2]
      demoRenderer demoLaidOut demoReworked rfl rfl rfl⟩

/-- C2 (code at the failing input): five items, a layout pass at extent 50
leaves 3 tab buttons; the menu built by the overflow action's handler has a
single entry, and it calls `SelectIndex(4)`: entry 0 selects index
`visibleCount + 1`, there is no entry 1, and no entry selects index 3. -/
theorem overflow_entry_selects_past_visible_count :
    (((CreateRenderer demoHost demoTabs).bind
        (fun r => Layout demoHost r ⟨50, 50⟩)).bind overflowTapped).map
      (fun r => (visibleCount r,
        r.duplicateTabs.popupMenu.map (fun m => m.Items.map MenuItem.selectIndex))) =
      some (3, some [4]) := by
  decide

/-- C3 (code at the failing input): five items and 3 tab buttons; the overflow
menu has one entry, labelled with the text of `Items[4]`, where the
specification has two, for `Items[3]` and `Items[4]`: the item at index 3 has neither a tab
button nor a menu entry. -/
theorem overflow_menu_omits_first_hidden_item :
    (((CreateRenderer demoHost demoTabs).bind
        (fun r => Layout demoHost r ⟨50, 50⟩)).bind overflowTapped).map
      (fun r => (r.duplicateTabs.Items.length, visibleCount r,
        r.duplicateTabs.popupMenu.map (fun m => m.Items.map MenuItem.Label))) =
      some (5, 3, some ["e"]) := by
  decide

/-- C4 (code at the failing input): five items, 3 tab buttons and the item at
index 3 selected, so `current = visibleCount`; `updateIndicator` reads the
geometry of `buttons[3]`, which is the add button, not the overflow action,
and the indicator is moved to the add button's place. -/
theorem indicator_anchors_to_add_button :
    ((CreateRenderer demoHost demoTabsThree).bind
        (fun r => Layout demoHost r ⟨50, 50⟩)).map
      (fun r => (visibleCount r, r.duplicateTabs.current,
        selectedObject r.duplicateTabs.current (barButtons r), r.indicator)) =
      some (3, 3, some CanvasObject.addTabButton,
        Indicator.moved ⟨30, 50⟩ ⟨10, 4⟩ false) := by
  decide

/-- C8 (code at the failing input): with every slot nil the notifier made by
`onSelected` does nothing, but the add button's handler calls the nil
`OnAdded` and faults. -/
theorem add_handler_faults_on_nil_OnAdded :
    demoRenderer.duplicateTabs.OnAdded.isNone = true ∧
    onSelected demoRenderer.duplicateTabs ⟨1, "a", 0⟩ 7 = 7 ∧
    (addTabTapped demoHost (fun t _ s => (t, s)) demoRenderer 7).isNone = true := by
  decide

/-- C10 (code at the failing input): for `NewDuplicateTabs()` with no items,
on every host and at every extent, `CreateRenderer` and a following `Layout`
return; after each the visible count is 0, the button container holds the add
button only and the overflow action is hidden; but `current` is 0, not
negative, so `updateIndicator` does not take its `Hide` branch: it reads the
geometry of `buttons[0]`, the add button, and moves the indicator there. -/
theorem empty_tabs_indicator_not_hidden (host : Host F) (size : Size F) :
    ∃ r0 r1 : duplicateTabsRenderer F σ,
      CreateRenderer host (NewDuplicateTabs host []) = some r0 ∧
      Layout host r0 size = some r1 ∧
      visibleCount r0 = 0 ∧ barButtons r0 = [CanvasObject.addTabButton] ∧
      r0.actionHidden = true ∧ r0.duplicateTabs.current = 0 ∧
      selectedObject r0.duplicateTabs.current (barButtons r0) =
        some CanvasObject.addTabButton ∧
      r0.indicator ≠ Indicator.hidden ∧
      visibleCount r1 = 0 ∧ barButtons r1 = [CanvasObject.addTabButton] ∧
      r1.actionHidden = true ∧ r1.duplicateTabs.current = 0 ∧
      selectedObject r1.duplicateTabs.current (barButtons r1) =
        some CanvasObject.addTabButton ∧
      r1.indicator ≠ Indicator.hidden := by
  refine ⟨_, _, rfl, rfl, rfl, rfl, rfl, rfl, rfl, ?_, rfl, rfl, rfl, rfl, rfl, ?_⟩
  · intro h
    cases h
  · intro h
    cases h

/-- C6 (code at the failing input): five items, `CreateRenderer` (its
`updateTabs(1)` leaves one tab button and the overflow action shown), then the
collection is emptied and `Layout` runs. The loop of `Layout` starts at
`len(Items) = 0` and never calls `updateTabs`, so after the layout pass the bar
still has 1 tab button with 0 items, the overflow action is still shown with a
border layout, and tapping it faults (`make` with capacity `0 - 2`). -/
theorem Layout_leaves_overflow_shown_on_emptied_collection :
    (((CreateRenderer demoHost demoTabs).map emptyItems).bind
        (fun r => Layout demoHost r ⟨100, 100⟩)).map
      (fun r => (r.duplicateTabs.Items.length, visibleCount r, r.actionHidden,
        r.bar.Layout, (overflowTapped r).isNone)) =
      some (0, 1, false,
        BarLayout.BorderLayout none none none (some CanvasObject.overflowAction), true) := by
  decide

/-- C7 (code at the failing input): one item, `CreateRenderer`, a layout pass,
then the collection is emptied. The bar built from all 0 items fits extent 100,
yet `Layout` at that extent skips its loop and keeps the old bar: the visible
count stays 1 with 0 items, and the removed item's button stays in the bar. -/
theorem Layout_keeps_stale_bar_on_emptied_collection :
    demoEmptied.duplicateTabs.Items.length = 0 ∧
    candidateFits demoHost demoEmptied ⟨100, 100⟩
      demoEmptied.duplicateTabs.Items.length = true ∧
    (Layout demoHost demoEmptied ⟨100, 100⟩).map
      (fun r => (r.duplicateTabs.Items.length, visibleCount r, barButtons r,
        r.actionHidden)) =
      some (0, 1, [CanvasObject.tabButton 0, CanvasObject.addTabButton], true) := by
  decide

end container
